import Mathlib

/-
Verification of the OpenFlow action/instruction codec in ovs/lib/ofp-actions.c
(the Lantern repository).  The embedding models the file as compiled with the
_OFP_CENTEC_ product flag defined: the #else-less branch at the 1.1 push_vlan
decoder dereferences the ethertype member that exists only in that
configuration, so the flag is the repository's build configuration.

Wire records are modelled structurally: every multi-byte field is kept as the
value it carries (byte order conversions ntohs/htons are value-identities in
this view), and the variable-length regions (note payload, dec_ttl controller
id region) are kept as explicit lists, so that lengths and padding behave as
on the wire.  The external helpers from ofp-util.c / nx-match.h that the file
calls (port-number mapping, output-port check, subfield decoding) are not part
of the provided sources; they are modelled from the specification and carry a
doc comment saying so.  Sub-codec actions (reg_move, reg_load, set_field,
learn, multipath, bundle) are outside the specification's scope and are not
part of the internal action type.
-/

namespace Lantern

/-- OpenFlow error codes (enum ofperr values) used by ofp-actions.c. -/
inductive Ofperr where
  | badType
  | badVendor
  | badLen
  | badArgument
  | badOutPort
  | mustBeZero
  | unsupportedOrder
  | badExperimenter
  | badInstLen
  | unknownInst
  | unsupInst
  | brcBadLen
  deriving DecidableEq, Repr

/-- Reserved 1.0 port constant OFPP_MAX. -/
def OFPP_MAX : Nat := 0xff00

/-- Reserved 1.0 port constant OFPP_IN_PORT. -/
def OFPP_IN_PORT : Nat := 0xfff8

/-- Reserved 1.0 port constant OFPP_TABLE. -/
def OFPP_TABLE : Nat := 0xfff9

/-- Reserved 1.0 port constant OFPP_NORMAL. -/
def OFPP_NORMAL : Nat := 0xfffa

/-- Reserved 1.0 port constant OFPP_FLOOD. -/
def OFPP_FLOOD : Nat := 0xfffb

/-- Reserved 1.0 port constant OFPP_ALL. -/
def OFPP_ALL : Nat := 0xfffc

/-- Reserved 1.0 port constant OFPP_CONTROLLER. -/
def OFPP_CONTROLLER : Nat := 0xfffd

/-- Reserved 1.0 port constant OFPP_LOCAL. -/
def OFPP_LOCAL : Nat := 0xfffe

/-- Originating wire opcode remembered in the internal header (the compat
field, enum ofputil_action_code).  Only the opcodes the codec actually stores
are represented; OFPUTIL_ACTION_INVALID is the default. -/
inductive Compat where
  | invalid
  | nxastResubmit
  | nxastResubmitTable
  | nxastSetTunnel
  | nxastSetTunnel64
  | nxastDecTtl
  | nxastDecTtlCntIds
  | ofpat11DecNwTtl
  deriving DecidableEq, Repr

/-- Internal action record (struct ofpact and its per-kind bodies).  The kinds
whose decode/encode is delegated to external sub-codecs (reg_move, reg_load,
set_field, learn, multipath, bundle, output_reg) are outside the spec's scope
and are not represented. -/
inductive Ofpact where
  | output (port maxLen : Nat)
  | enqueue (port queue : Nat)
  | setVlanVid (vlanVid : Nat)
  | setVlanPcp (vlanPcp : Nat)
  | stripVlan
  | pushVlan (ethertype : Nat)
  | setEthSrc (mac : Nat)
  | setEthDst (mac : Nat)
  | setIpv4Src (ipv4 : Nat)
  | setIpv4Dst (ipv4 : Nat)
  | setIpv4Dscp (dscp : Nat)
  | setL4SrcPort (port : Nat)
  | setL4DstPort (port : Nat)
  | controller (maxLen controllerId reason : Nat)
  | decTtl (nControllers : Nat) (cntIds : List Nat) (compat : Compat)
  | setTunnel (tunId : Nat) (compat : Compat)
  | setQueue (queueId : Nat)
  | popQueue
  | finTimeout (finIdleTimeout finHardTimeout : Nat)
  | resubmit (inPort tableId : Nat) (compat : Compat)
  | note (data : List Nat)
  | exitAct
  | writeMetadata (metadata mask : Nat)
  | clearActions
  | gotoTable (tableId : Nat)
  | pushMpls (ethertype : Nat)
  | popMpls (ethertype : Nat)
  | pushL2
  | popL2
  | setMplsTtl (mplsTtl : Nat)
  | group (groupId : Nat)
  | meter (meterId : Nat)
  deriving DecidableEq, Repr

/-- Nicira vendor-extension wire actions (struct nx_action_*).  Variable
regions are explicit: a note carries the bytes after the 10-byte fixed prefix
(payload plus wire padding), dec_ttl_cnt_ids carries the 16-bit words after
the 16-byte fixed part. -/
inductive NxAction where
  | resubmit (inPort : Nat)
  | resubmitTable (inPort table pad0 pad1 pad2 : Nat)
  | setTunnel (tunId : Nat)
  | setTunnel64 (tunId : Nat)
  | writeMetadata (metadata mask : Nat) (zeros : List Nat)
  | setQueue (queueId : Nat)
  | popQueue
  | note (data : List Nat)
  | decTtl
  | decTtlCntIds (nControllers : Nat) (zeros : List Nat) (ids : List Nat)
  | finTimeout (finIdleTimeout finHardTimeout : Nat)
  | controller (maxLen controllerId reason : Nat)
  | pushMpls (ethertype : Nat)
  | popMpls (ethertype : Nat)
  | exitAct
  | pushL2
  | popL2
  deriving DecidableEq, Repr

/-- OpenFlow 1.0 wire actions (union ofp_action as classified by
decode_openflow10_action); OFPAT10_VENDOR carries an NX action. -/
inductive W10Action where
  | output (port maxLen : Nat)
  | setVlanVid (vlanVid : Nat)
  | setVlanPcp (vlanPcp : Nat)
  | stripVlan
  | setDlSrc (mac : Nat)
  | setDlDst (mac : Nat)
  | setNwSrc (ipv4 : Nat)
  | setNwDst (ipv4 : Nat)
  | setNwTos (nwTos : Nat)
  | setTpSrc (port : Nat)
  | setTpDst (port : Nat)
  | enqueue (port queueId : Nat)
  | vendor (nx : NxAction)
  deriving DecidableEq, Repr

/-- OpenFlow 1.1 wire actions (as classified by decode_openflow11_action);
OFPAT11_EXPERIMENTER carries an NX action. -/
inductive W11Action where
  | output (port maxLen : Nat)
  | setVlanVid (vlanVid : Nat)
  | setVlanPcp (vlanPcp : Nat)
  | pushVlan (ethertype : Nat)
  | popVlan
  | setQueue (queueId : Nat)
  | setDlSrc (mac : Nat)
  | setDlDst (mac : Nat)
  | decNwTtl
  | setNwSrc (ipv4 : Nat)
  | setNwDst (ipv4 : Nat)
  | setNwTos (nwTos : Nat)
  | setTpSrc (port : Nat)
  | setTpDst (port : Nat)
  | pushMpls (ethertype : Nat)
  | popMpls (ethertype : Nat)
  | group (groupId : Nat)
  | setMplsTtl (mplsTtl : Nat)
  | experimenter (nx : NxAction)
  deriving DecidableEq, Repr

/-- OpenFlow 1.1+ wire instructions (struct ofp11_instruction records). -/
inductive W11Instruction where
  | meter (meterId : Nat)
  | applyActions (actions : List W11Action)
  | clearActions
  | writeActions (actions : List W11Action)
  | writeMetadata (metadata mask : Nat)
  | gotoTable (tableId : Nat)
  | experimenter
  deriving DecidableEq, Repr

/-- is_all_zeros over a reserved byte region. -/
def is_all_zeros (l : List Nat) : Bool := l.all (fun b => b = 0)

/-- eth_type_mpls: ETH_TYPE_MPLS (0x8847) or ETH_TYPE_MPLS_MCAST (0x8848). -/
def eth_type_mpls (e : Nat) : Bool := e = 0x8847 || e = 0x8848

/-- ROUND_UP(x, y) for positive y. -/
def roundUp (x y : Nat) : Nat := (x + y - 1) / y * y

/-- Modelled from the spec: ofputil_check_output_port of ofp-util.c is not in
the provided sources.  Per section 4.G an output port is valid when it is one
of IN_PORT, TABLE, NORMAL, FLOOD, ALL, CONTROLLER, LOCAL, or is strictly
below max_ports; anything else is BAD_OUT_PORT. -/
def ofputil_check_output_port (port maxPorts : Nat) : Option Ofperr :=
  if port = OFPP_IN_PORT ∨ port = OFPP_TABLE ∨ port = OFPP_NORMAL ∨
     port = OFPP_FLOOD ∨ port = OFPP_ALL ∨ port = OFPP_CONTROLLER ∨
     port = OFPP_LOCAL then none
  else if port < maxPorts then none
  else some Ofperr.badOutPort

/-- Modelled from the spec: ofputil_port_to_ofp11 of ofp-util.c is not in the
provided sources.  Per section 4.D the reserved high-range 16-bit codes are
mapped into the 32-bit space by a fixed offset; ordinary port numbers are
unchanged. -/
def ofputil_port_to_ofp11 (port : Nat) : Nat :=
  if port < OFPP_MAX then port else 0xffff0000 + port

/-- Modelled from the spec: ofputil_port_from_ofp11 of ofp-util.c is not in
the provided sources.  Per section 4.D ordinary 32-bit port numbers below the
reserved range map to themselves, the fixed high-range reserved codes map to
the 16-bit internal space, and anything else is rejected. -/
def ofputil_port_from_ofp11 (port : Nat) : Except Ofperr Nat :=
  if port < OFPP_MAX then Except.ok port
  else if 0xffff0000 + OFPP_IN_PORT ≤ port ∧ port ≤ 0xffff0000 + 0xffff then
    Except.ok (port - 0xffff0000)
  else Except.error Ofperr.badOutPort

/-- ofpact_from_nxast (with the helpers resubmit_from_openflow,
resubmit_table_from_openflow, metadata_from_nxast, note_from_openflow,
dec_ttl_from_openflow, dec_ttl_cnt_ids_from_openflow,
fin_timeout_from_openflow, controller_from_openflow inlined).  Returns the
records the call appends to the output buffer together with the error it
returns; on the error paths that append a partial record first (the
dec_ttl_cnt_ids checks run after ofpact_put_DEC_TTL) that partial record is
reported. -/
def ofpact_from_nxast : NxAction → List Ofpact × Option Ofperr
  | .resubmit inPort => ([.resubmit inPort 0xff Compat.nxastResubmit], none)
  | .resubmitTable inPort table p0 p1 p2 =>
    if p0 ≠ 0 ∨ p1 ≠ 0 ∨ p2 ≠ 0 then ([], some Ofperr.badArgument)
    else ([.resubmit inPort table Compat.nxastResubmitTable], none)
  | .setTunnel tunId => ([.setTunnel tunId Compat.nxastSetTunnel], none)
  | .setTunnel64 tunId => ([.setTunnel tunId Compat.nxastSetTunnel64], none)
  | .writeMetadata md mask zeros =>
    if is_all_zeros zeros = false then ([], some Ofperr.mustBeZero)
    else ([.writeMetadata md mask], none)
  | .setQueue q => ([.setQueue q], none)
  | .popQueue => ([.popQueue], none)
  | .note data => ([.note data], none)
  | .decTtl => ([.decTtl 1 [0] Compat.nxastDecTtl], none)
  | .decTtlCntIds n zeros ids =>
    if is_all_zeros zeros = false then
      ([.decTtl n [] Compat.nxastDecTtlCntIds], some Ofperr.mustBeZero)
    else if 2 * ids.length < n * 2 then
      ([.decTtl n [] Compat.nxastDecTtlCntIds], some Ofperr.badLen)
    else ([.decTtl n (ids.take n) Compat.nxastDecTtlCntIds], none)
  | .finTimeout idle hard => ([.finTimeout idle hard], none)
  | .controller maxLen ctrlId reason => ([.controller maxLen ctrlId reason], none)
  | .pushMpls e =>
    if eth_type_mpls e = false then ([], some Ofperr.badArgument)
    else ([.pushMpls e], none)
  | .popMpls e =>
    if eth_type_mpls e = true then ([], some Ofperr.badArgument)
    else ([.popMpls e], none)
  | .exitAct => ([.exitAct], none)
  | .pushL2 => ([.pushL2], none)
  | .popL2 => ([.popL2], none)

/-- ofpact_from_openflow10 (with output_from_openflow10 and
enqueue_from_openflow10 inlined): per-record OpenFlow 1.0 decode.  The 1.0
output and enqueue decoders append the record before running their port
checks, so the record is reported together with the error. -/
def ofpact_from_openflow10 : W10Action → List Ofpact × Option Ofperr
  | .output p m => ([.output p m], ofputil_check_output_port p OFPP_MAX)
  | .setVlanVid v =>
    if v &&& 0xf000 ≠ 0 then ([], some Ofperr.badArgument)
    else ([.setVlanVid v], none)
  | .setVlanPcp c =>
    if c &&& 0xf8 ≠ 0 then ([], some Ofperr.badArgument)
    else ([.setVlanPcp c], none)
  | .stripVlan => ([.stripVlan], none)
  | .setDlSrc mac => ([.setEthSrc mac], none)
  | .setDlDst mac => ([.setEthDst mac], none)
  | .setNwSrc ip => ([.setIpv4Src ip], none)
  | .setNwDst ip => ([.setIpv4Dst ip], none)
  | .setNwTos t =>
    if t &&& 0x03 ≠ 0 then ([], some Ofperr.badArgument)
    else ([.setIpv4Dscp t], none)
  | .setTpSrc p => ([.setL4SrcPort p], none)
  | .setTpDst p => ([.setL4DstPort p], none)
  | .enqueue p q =>
    ([.enqueue p q],
     if OFPP_MAX ≤ p ∧ p ≠ OFPP_IN_PORT ∧ p ≠ OFPP_LOCAL then
       some Ofperr.badOutPort
     else none)
  | .vendor nx => ofpact_from_nxast nx

/-- ofpact_from_openflow11 (with output_from_openflow11 inlined): per-record
OpenFlow 1.1 decode, in the _OFP_CENTEC_ configuration (push_vlan keeps its
ethertype without the 0x8100 check, push_mpls and pop_mpls skip the ethertype
checks, group and set_mpls_ttl are native).  output appends the record (port
still zero from ofpact_init) before the port conversion can fail. -/
def ofpact_from_openflow11 : W11Action → List Ofpact × Option Ofperr
  | .output q m =>
    match ofputil_port_from_ofp11 q with
    | .error e => ([.output 0 m], some e)
    | .ok p => ([.output p m], ofputil_check_output_port p OFPP_MAX)
  | .setVlanVid v =>
    if v &&& 0xf000 ≠ 0 then ([], some Ofperr.badArgument)
    else ([.setVlanVid v], none)
  | .setVlanPcp c =>
    if c &&& 0xf8 ≠ 0 then ([], some Ofperr.badArgument)
    else ([.setVlanPcp c], none)
  | .pushVlan e => ([.pushVlan e], none)
  | .popVlan => ([.stripVlan], none)
  | .setQueue q => ([.setQueue q], none)
  | .setDlSrc mac => ([.setEthSrc mac], none)
  | .setDlDst mac => ([.setEthDst mac], none)
  | .decNwTtl => ([.decTtl 1 [0] Compat.ofpat11DecNwTtl], none)
  | .setNwSrc ip => ([.setIpv4Src ip], none)
  | .setNwDst ip => ([.setIpv4Dst ip], none)
  | .setNwTos t =>
    if t &&& 0x03 ≠ 0 then ([], some Ofperr.badArgument)
    else ([.setIpv4Dscp t], none)
  | .setTpSrc p => ([.setL4SrcPort p], none)
  | .setTpDst p => ([.setL4DstPort p], none)
  | .pushMpls e => ([.pushMpls e], none)
  | .popMpls e => ([.popMpls e], none)
  | .group g => ([.group g], none)
  | .setMplsTtl t => ([.setMplsTtl t], none)
  | .experimenter nx => ofpact_from_nxast nx

/-- ofpacts_from_openflow: fold one-record decoding over a wire action list,
accumulating the output buffer; the first error stops the walk, leaving the
partially filled buffer (the caller clears it). -/
def ofpacts_from_openflow (f : α → List Ofpact × Option Ofperr) :
    List α → List Ofpact → List Ofpact × Option Ofperr
  | [], buf => (buf, none)
  | a :: rest, buf =>
    match f a with
    | (recs, some e) => (buf ++ recs, some e)
    | (recs, none) => ofpacts_from_openflow f rest (buf ++ recs)

/-- Instruction category of an internal record in ofpacts_verify: every
non-instruction kind counts as OVSINST_OFPIT11_APPLY_ACTIONS (0 here); the
synthetic kinds map to CLEAR_ACTIONS (1), WRITE_METADATA (2), GOTO_TABLE (3),
preserving the enum order used by the comparison. -/
def instCategory : Ofpact → Nat
  | .clearActions => 1
  | .writeMetadata _ _ => 2
  | .gotoTable _ => 3
  | _ => 0

/-- Loop of ofpacts_verify: inst is the category of the previous record
(initially apply-actions = 0); a record whose category is ≤ a previous
non-apply category is OFPERR_OFPBAC_UNSUPPORTED_ORDER. -/
def ofpacts_verify_from : Nat → List Ofpact → Option Ofperr
  | _, [] => none
  | inst, a :: rest =>
    if inst ≠ 0 ∧ instCategory a ≤ inst then some Ofperr.unsupportedOrder
    else ofpacts_verify_from (instCategory a) rest

/-- ofpacts_verify: instruction-order check over an internal action list. -/
def ofpacts_verify (l : List Ofpact) : Option Ofperr := ofpacts_verify_from 0 l

/-- ofpacts_pull_actions: translate the wire list into a fresh buffer, then
run ofpacts_verify; on any error the output buffer is cleared. -/
def ofpacts_pull_actions (f : α → List Ofpact × Option Ofperr) (w : List α) :
    Option Ofperr × List Ofpact :=
  match ofpacts_from_openflow f w [] with
  | (_, some e) => (some e, [])
  | (buf, none) =>
    match ofpacts_verify buf with
    | some e => (some e, [])
    | none => (none, buf)

/-- ofpacts_pull_openflow10. -/
def ofpacts_pull_openflow10 (w : List W10Action) : Option Ofperr × List Ofpact :=
  ofpacts_pull_actions ofpact_from_openflow10 w

/-- ofpacts_pull_openflow11_actions. -/
def ofpacts_pull_openflow11_actions (w : List W11Action) :
    Option Ofperr × List Ofpact :=
  ofpacts_pull_actions ofpact_from_openflow11 w

/-- At-most-one slot per instruction kind collected by
decode_openflow11_instructions. -/
structure InstSet where
  meterInst : Option Nat
  applyInst : Option (List W11Action)
  clearFlag : Bool
  writeActionsInst : Option (List W11Action)
  writeMetadataInst : Option (Nat × Nat)
  gotoInst : Option Nat
  deriving DecidableEq, Repr

/-- Empty instruction slot set. -/
def InstSet.empty : InstSet := ⟨none, none, false, none, none, none⟩

/-- decode_openflow11_instructions: walk the instruction list, storing at most
one record per kind; a duplicate kind is UNSUPPORTED_ORDER and an
OFPIT11_EXPERIMENTER record is BAD_EXPERIMENTER. -/
def decode_openflow11_instructions : List W11Instruction → InstSet → Except Ofperr InstSet
  | [], s => Except.ok s
  | i :: rest, s =>
    match i with
    | .experimenter => Except.error Ofperr.badExperimenter
    | .meter m =>
      if s.meterInst.isSome then Except.error Ofperr.unsupportedOrder
      else decode_openflow11_instructions rest
        ⟨some m, s.applyInst, s.clearFlag, s.writeActionsInst, s.writeMetadataInst, s.gotoInst⟩
    | .applyActions acts =>
      if s.applyInst.isSome then Except.error Ofperr.unsupportedOrder
      else decode_openflow11_instructions rest
        ⟨s.meterInst, some acts, s.clearFlag, s.writeActionsInst, s.writeMetadataInst, s.gotoInst⟩
    | .clearActions =>
      if s.clearFlag then Except.error Ofperr.unsupportedOrder
      else decode_openflow11_instructions rest
        ⟨s.meterInst, s.applyInst, true, s.writeActionsInst, s.writeMetadataInst, s.gotoInst⟩
    | .writeActions acts =>
      if s.writeActionsInst.isSome then Except.error Ofperr.unsupportedOrder
      else decode_openflow11_instructions rest
        ⟨s.meterInst, s.applyInst, s.clearFlag, some acts, s.writeMetadataInst, s.gotoInst⟩
    | .writeMetadata md mask =>
      if s.writeMetadataInst.isSome then Except.error Ofperr.unsupportedOrder
      else decode_openflow11_instructions rest
        ⟨s.meterInst, s.applyInst, s.clearFlag, s.writeActionsInst, some (md, mask), s.gotoInst⟩
    | .gotoTable t =>
      if s.gotoInst.isSome then Except.error Ofperr.unsupportedOrder
      else decode_openflow11_instructions rest
        ⟨s.meterInst, s.applyInst, s.clearFlag, s.writeActionsInst, s.writeMetadataInst, some t⟩

/-- Tail of ofpacts_pull_openflow11_instructions after the action-bearing
instructions are materialised: in the _OFP_CENTEC_ configuration a
write-metadata or goto-table instruction is OFPERR_OFPBIC_UNSUP_INST, then
the buffer runs through ofpacts_verify; any error clears the buffer. -/
def pullInstsFinish (s : InstSet) (buf : List Ofpact) :
    Option Ofperr × List Ofpact :=
  if s.writeMetadataInst.isSome then (some Ofperr.unsupInst, [])
  else if s.gotoInst.isSome then (some Ofperr.unsupInst, [])
  else
    match ofpacts_verify buf with
    | some e => (some e, [])
    | none => (none, buf)

/-- Internal meter record synthesised for a 1.3 meter instruction, if one
was present (_OFP_CENTEC_). -/
def meterPart : Option Nat → List Ofpact
  | some m => [Ofpact.meter m]
  | none => []

/-- Body of ofpacts_pull_openflow11_instructions after the slot walk: in the
_OFP_CENTEC_ configuration the meter instruction becomes an internal meter
record first, then the apply-actions inner list is decoded, then
clear-actions, then a write-actions inner list (rejected as UNSUP_INST when
apply-actions is also present), then the finish checks.  Errors clear the
buffer. -/
def pullInstsAux (s : InstSet) : Option Ofperr × List Ofpact :=
  match (match s.applyInst with
         | some acts =>
           ofpacts_from_openflow ofpact_from_openflow11 acts (meterPart s.meterInst)
         | none => (meterPart s.meterInst, none)) with
  | (_, some e) => (some e, [])
  | (buf1, none) =>
    match s.writeActionsInst with
    | some acts =>
      if s.applyInst.isSome then (some Ofperr.unsupInst, [])
      else
        match ofpacts_from_openflow ofpact_from_openflow11 acts
            (if s.clearFlag then buf1 ++ [Ofpact.clearActions] else buf1) with
        | (_, some e) => (some e, [])
        | (buf3, none) => pullInstsFinish s buf3
    | none =>
      pullInstsFinish s (if s.clearFlag then buf1 ++ [Ofpact.clearActions] else buf1)

/-- ofpacts_pull_openflow11_instructions in the _OFP_CENTEC_ configuration. -/
def ofpacts_pull_openflow11_instructions (w : List W11Instruction) :
    Option Ofperr × List Ofpact :=
  match decode_openflow11_instructions w InstSet.empty with
  | .error e => (some e, [])
  | .ok s => pullInstsAux s

/-- ofpact_to_nxast: encode one internal record as a Nicira action.  Kinds the
switch marks NOT_REACHED() return none. -/
def ofpact_to_nxast : Ofpact → Option NxAction
  | .controller maxLen ctrlId reason => some (.controller maxLen ctrlId reason)
  | .decTtl n ids compat =>
    if compat = Compat.nxastDecTtl then some .decTtl
    else
      some (.decTtlCntIds n [0, 0, 0, 0]
        ((List.range (roundUp (2 * n) 8 / 2)).map
          (fun i => if i < n then ids.getD i 0 else 0)))
  | .setTunnel tunId compat =>
    if tunId ≤ 0xffffffff ∧ compat ≠ Compat.nxastSetTunnel64 then
      some (.setTunnel tunId)
    else some (.setTunnel64 tunId)
  | .writeMetadata md mask => some (.writeMetadata md mask [0, 0, 0, 0, 0, 0])
  | .setQueue q => some (.setQueue q)
  | .popQueue => some .popQueue
  | .finTimeout idle hard => some (.finTimeout idle hard)
  | .resubmit inPort tableId compat =>
    if tableId = 0xff ∧ compat ≠ Compat.nxastResubmitTable then
      some (.resubmit inPort)
    else some (.resubmitTable inPort tableId 0 0 0)
  | .note d =>
    some (.note (d ++ List.replicate
      (if (10 + d.length) % 8 = 0 then 0 else 8 - (10 + d.length) % 8) 0))
  | .exitAct => some .exitAct
  | .pushMpls e => some (.pushMpls e)
  | .popMpls e => some (.popMpls e)
  | .pushL2 => some .pushL2
  | .popL2 => some .popL2
  | _ => none

/-- ofpact_to_openflow10: encode one internal record as OpenFlow 1.0 actions.
push_vlan, clear_actions and goto_table (and, under _OFP_CENTEC_, meter,
set_mpls_ttl and group) emit nothing; kinds without a 1.0 equivalent fall
back to the NX vendor action. -/
def ofpact_to_openflow10 : Ofpact → List W10Action
  | .output p m => [.output p m]
  | .enqueue p q => [.enqueue p q]
  | .setVlanVid v => [.setVlanVid v]
  | .setVlanPcp c => [.setVlanPcp c]
  | .stripVlan => [.stripVlan]
  | .setEthSrc mac => [.setDlSrc mac]
  | .setEthDst mac => [.setDlDst mac]
  | .setIpv4Src ip => [.setNwSrc ip]
  | .setIpv4Dst ip => [.setNwDst ip]
  | .setIpv4Dscp t => [.setNwTos t]
  | .setL4SrcPort p => [.setTpSrc p]
  | .setL4DstPort p => [.setTpDst p]
  | .pushVlan _ => []
  | .clearActions => []
  | .gotoTable _ => []
  | .meter _ => []
  | .setMplsTtl _ => []
  | .group _ => []
  | a =>
    match ofpact_to_nxast a with
    | some nx => [.vendor nx]
    | none => []

/-- ofpacts_put_openflow10: concatenate the encodings of each record. -/
def ofpacts_put_openflow10 : List Ofpact → List W10Action
  | [] => []
  | a :: rest => ofpact_to_openflow10 a ++ ofpacts_put_openflow10 rest

/-- ofpact_dec_ttl_to_openflow11: a dec_ttl with one controller id 0 and a
compat of INVALID or OFPAT11_DEC_NW_TTL uses the native 1.1 dec_nw_ttl;
anything else goes through ofpact_to_nxast. -/
def ofpact_dec_ttl_to_openflow11 (n : Nat) (ids : List Nat) (compat : Compat) :
    List W11Action :=
  if n = 1 ∧ ids.getD 0 0 = 0 ∧
     (compat = Compat.invalid ∨ compat = Compat.ofpat11DecNwTtl) then
    [.decNwTtl]
  else
    match ofpact_to_nxast (.decTtl n ids compat) with
    | some nx => [.experimenter nx]
    | none => []

/-- ofpact_to_openflow11: encode one internal record as OpenFlow 1.1 actions,
in the _OFP_CENTEC_ configuration (push_vlan keeps the stored ethertype,
group and set_mpls_ttl are native, meter is NOT_REACHED()).  enqueue and
write_metadata emit nothing; clear_actions, goto_table and meter hit
NOT_REACHED() (none); kinds without a 1.1 equivalent fall back to NX. -/
def ofpact_to_openflow11 : Ofpact → Option (List W11Action)
  | .output p m => some [.output (ofputil_port_to_ofp11 p) m]
  | .enqueue _ _ => some []
  | .setVlanVid v => some [.setVlanVid v]
  | .setVlanPcp c => some [.setVlanPcp c]
  | .stripVlan => some [.popVlan]
  | .pushVlan e => some [.pushVlan e]
  | .setQueue q => some [.setQueue q]
  | .setEthSrc mac => some [.setDlSrc mac]
  | .setEthDst mac => some [.setDlDst mac]
  | .setIpv4Src ip => some [.setNwSrc ip]
  | .setIpv4Dst ip => some [.setNwDst ip]
  | .setIpv4Dscp t => some [.setNwTos t]
  | .setL4SrcPort p => some [.setTpSrc p]
  | .setL4DstPort p => some [.setTpDst p]
  | .decTtl n ids compat => some (ofpact_dec_ttl_to_openflow11 n ids compat)
  | .writeMetadata _ _ => some []
  | .pushMpls e => some [.pushMpls e]
  | .popMpls e => some [.popMpls e]
  | .clearActions => none
  | .gotoTable _ => none
  | .meter _ => none
  | .group g => some [.group g]
  | .setMplsTtl t => some [.setMplsTtl t]
  | a =>
    some (match ofpact_to_nxast a with
          | some nx => [.experimenter nx]
          | none => [])

/-- ofpacts_put_openflow11_actions: concatenate the 1.1 encodings; none when
some record hits a NOT_REACHED() assertion. -/
def ofpacts_put_openflow11_actions : List Ofpact → Option (List W11Action)
  | [] => some []
  | a :: rest => do
    let w ← ofpact_to_openflow11 a
    let ws ← ofpacts_put_openflow11_actions rest
    pure (w ++ ws)

/-- ofpact_is_instruction: the internal kinds that become standalone
instructions when encoding to 1.1+ instructions. -/
def ofpactIsInstruction : Ofpact → Bool
  | .clearActions => true
  | .writeMetadata _ _ => true
  | .gotoTable _ => true
  | .meter _ => true
  | _ => false

/-- ofpacts_put_openflow11_instructions: the synthetic kinds emit their
dedicated instruction; a maximal run of other records is encoded as 1.1
actions and wrapped in one apply-actions instruction, which is deleted again
when the run encoded to nothing. -/
def ofpacts_put_openflow11_instructions : List Ofpact → Option (List W11Instruction)
  | [] => some []
  | a :: rest =>
    match a with
    | .clearActions => do
      let tail ← ofpacts_put_openflow11_instructions rest
      pure (W11Instruction.clearActions :: tail)
    | .meter m => do
      let tail ← ofpacts_put_openflow11_instructions rest
      pure (W11Instruction.meter m :: tail)
    | .gotoTable t => do
      let tail ← ofpacts_put_openflow11_instructions rest
      pure (W11Instruction.gotoTable t :: tail)
    | .writeMetadata md mask => do
      let tail ← ofpacts_put_openflow11_instructions rest
      pure (W11Instruction.writeMetadata md mask :: tail)
    | a => do
      let inner ← ofpacts_put_openflow11_actions
        (a :: rest.takeWhile (fun x => !ofpactIsInstruction x))
      let tail ← ofpacts_put_openflow11_instructions
        (rest.dropWhile (fun x => !ofpactIsInstruction x))
      pure (if inner.isEmpty then tail
            else W11Instruction.applyActions inner :: tail)
  termination_by l => l.length
  decreasing_by
    all_goals simp_wf
    have h : ∀ (l : List Ofpact),
        (List.dropWhile (fun x => !ofpactIsInstruction x) l).length ≤ l.length := by
      intro l
      induction l with
      | nil => exact Nat.le_refl 0
      | cons b l ih =>
        rw [List.dropWhile_cons]
        split
        · exact Nat.le_trans ih (Nat.le_succ _)
        · exact Nat.le_refl _
    exact Nat.lt_succ_of_le (h _)

/-- ofpact_check__ for the kinds in scope: output and enqueue run port
checks, push_mpls and pop_mpls update the running dl_type, everything else
has no context-dependent constraint.  Returns the error and the new
dl_type. -/
def ofpact_check (a : Ofpact) (maxPorts : Nat) (dlType : Nat) :
    Option Ofperr × Nat :=
  match a with
  | .output p _ => (ofputil_check_output_port p maxPorts, dlType)
  | .enqueue p _ =>
    (if maxPorts ≤ p ∧ p ≠ OFPP_IN_PORT ∧ p ≠ OFPP_LOCAL then
       some Ofperr.badOutPort
     else none, dlType)
  | .pushMpls e => (none, e)
  | .popMpls e => (none, e)
  | _ => (none, dlType)

/-- ofpacts_check: fold ofpact_check over the list, threading dl_type. -/
def ofpacts_check : List Ofpact → Nat → Nat → Option Ofperr
  | [], _, _ => none
  | a :: rest, maxPorts, dl =>
    match ofpact_check a maxPorts dl with
    | (some e, _) => some e
    | (none, dl2) => ofpacts_check rest maxPorts dl2

/-- ofpact_outputs_to_port: output and enqueue compare their port, controller
matches the reserved CONTROLLER port, every other kind is false. -/
def ofpact_outputs_to_port (a : Ofpact) (port : Nat) : Bool :=
  match a with
  | .output p _ => p = port
  | .enqueue p _ => p = port
  | .controller _ _ _ => port = OFPP_CONTROLLER
  | _ => false

/-- ofpacts_output_to_port: true when some record outputs to the port. -/
def ofpacts_output_to_port (l : List Ofpact) (port : Nat) : Bool :=
  l.any (fun a => ofpact_outputs_to_port a port)

/-- Wire form of struct nx_action_output_reg: the subfield source as its raw
nxm header, the packed ofs_nbits word, max_len, and the 6 reserved zero
bytes. -/
structure NxActionOutputReg where
  src : Nat
  ofsNbits : Nat
  maxLen : Nat
  zero : List Nat
  deriving DecidableEq, Repr

/-- Internal ofpact_output_reg body produced by the decoder. -/
structure OfpactOutputReg where
  srcField : Nat
  srcOfs : Nat
  srcNBits : Nat
  maxLen : Nat
  deriving DecidableEq, Repr

/-- Modelled from the spec: nxm_decode_ofs of nx-match.h is not in the
provided sources; ofs_nbits packs the offset in the high bits (offset =
word / 64). -/
def nxm_decode_ofs (x : Nat) : Nat := x / 64

/-- Modelled from the spec: nxm_decode_n_bits of nx-match.h is not in the
provided sources; the low 6 bits hold n_bits - 1. -/
def nxm_decode_n_bits (x : Nat) : Nat := x % 64 + 1

/-- Modelled from the spec: mf_check_src belongs to the external field
registry, which section 1 places out of scope; its errors are orthogonal to
the reserved-zero check, so it succeeds here. -/
def mf_check_src (_r : OfpactOutputReg) : Option Ofperr := none

/-- output_reg_from_openflow: reject a non-zero reserved region with
OFPERR_OFPBAC_BAD_ARGUMENT, then build the record and delegate the subfield
check. -/
def output_reg_from_openflow (naor : NxActionOutputReg) :
    List OfpactOutputReg × Option Ofperr :=
  if is_all_zeros naor.zero = false then ([], some Ofperr.badArgument)
  else
    let r : OfpactOutputReg :=
      ⟨naor.src, nxm_decode_ofs naor.ofsNbits, nxm_decode_n_bits naor.ofsNbits,
       naor.maxLen⟩
    ([r], mf_check_src r)

/-- OFPACT_ALIGNTO alignment of a byte count. -/
def align8 (n : Nat) : Nat := (n + 7) / 8 * 8

/-- Modelled from the spec: the internal record layout lives in ofp-actions.h,
which is not in the provided sources.  Per section 3.1 every record is at
least a header (8 bytes) plus its kind-dependent body, with the two
variable-size kinds carrying their trailing region; the fixed bodies are
represented with a uniform 16-byte footprint. -/
def ofpactRawLen : Ofpact → Nat
  | .note d => 16 + d.length
  | .decTtl _ ids _ => 16 + 2 * ids.length
  | _ => 16

/-- Modelled from the spec: the len header field of an internal record is the
total bytes of the record including its alignment padding (section 3.1:
len % 8 == 0 and the lens sum to the buffer size). -/
def ofpactLen (a : Ofpact) : Nat := align8 (ofpactRawLen a)

/-- ofpact_put on the byte level: pad the buffer to the alignment, then
append the raw record. -/
def ofpactPutSize (s : Nat) (a : Ofpact) : Nat := align8 s + ofpactRawLen a

/-- Byte size of the output buffer after decoding the given records and the
final ofpact_pad. -/
def ofpactsDecodedSize (l : List Ofpact) : Nat := align8 (l.foldl ofpactPutSize 0)

/-- Wire length of an NX note action: the 10-byte fixed prefix plus the
payload region. -/
def nx_action_note_len (data : List Nat) : Nat := 10 + data.length

/-- Claim-side ordering predicate (C3): the instruction categories appear in
non-decreasing order with respect to apply < clear < write_metadata <
goto_table, and no non-apply category repeats. -/
def specOrdered (l : List Ofpact) : Prop :=
  List.Chain' (· ≤ ·) (l.map instCategory) ∧
    ∀ c ∈ l.map instCategory, c ≠ 0 → (l.map instCategory).count c ≤ 1

/-- Claim-side predicate (C10): the record is an output to the port, an
enqueue to the port, or a controller action while the port is the reserved
CONTROLLER port. -/
def outputsToPortSpec (a : Ofpact) (port : Nat) : Prop :=
  (∃ m, a = Ofpact.output port m) ∨ (∃ q, a = Ofpact.enqueue port q) ∨
    (port = OFPP_CONTROLLER ∧ ∃ ml i r, a = Ofpact.controller ml i r)

/-- Claim-side validity predicate for the 1.0 round trip (C1): the record
fields pass the generic decode checks, the compat fields are the canonical
values the decoder itself produces, the note payload needs no wire padding,
and the kind is not one the 1.0 encoder silently drops (push_vlan,
clear_actions, goto_table, and the _OFP_CENTEC_ kinds meter, set_mpls_ttl,
group). -/
def rt10 : Ofpact → Bool
  | .output p _ => decide (ofputil_check_output_port p OFPP_MAX = none)
  | .enqueue p _ => decide (p < OFPP_MAX ∨ p = OFPP_IN_PORT ∨ p = OFPP_LOCAL)
  | .setVlanVid v => decide (v &&& 0xf000 = 0)
  | .setVlanPcp c => decide (c &&& 0xf8 = 0)
  | .setIpv4Dscp t => decide (t &&& 0x03 = 0)
  | .decTtl n ids compat =>
    decide ((compat = Compat.nxastDecTtl ∧ n = 1 ∧ ids = [0]) ∨
            (compat = Compat.nxastDecTtlCntIds ∧ ids.length = n))
  | .setTunnel tunId compat =>
    decide ((tunId ≤ 0xffffffff ∧ compat = Compat.nxastSetTunnel) ∨
            compat = Compat.nxastSetTunnel64)
  | .resubmit _ tableId compat =>
    decide ((tableId = 0xff ∧ compat = Compat.nxastResubmit) ∨
            compat = Compat.nxastResubmitTable)
  | .note d => decide ((10 + d.length) % 8 = 0)
  | .pushMpls e => eth_type_mpls e
  | .popMpls e => !eth_type_mpls e
  | .pushVlan _ => false
  | .clearActions => false
  | .gotoTable _ => false
  | .meter _ => false
  | .setMplsTtl _ => false
  | .group _ => false
  | _ => true

/-- Claim-side validity predicate for the 1.1 action-list round trip (C1):
as rt10, except that the 1.1 output port must survive the 32-bit mapping,
push_vlan, push_mpls, pop_mpls, group and set_mpls_ttl are native (any
ethertype, _OFP_CENTEC_), dec_ttl may also carry the OFPAT11_DEC_NW_TTL
compat, and enqueue and write_metadata are silently dropped while
clear_actions, goto_table and meter hit assertions. -/
def rt11 : Ofpact → Bool
  | .output p _ => decide (p < OFPP_MAX ∨ (OFPP_IN_PORT ≤ p ∧ p ≤ OFPP_LOCAL))
  | .enqueue _ _ => false
  | .writeMetadata _ _ => false
  | .setVlanVid v => decide (v &&& 0xf000 = 0)
  | .setVlanPcp c => decide (c &&& 0xf8 = 0)
  | .setIpv4Dscp t => decide (t &&& 0x03 = 0)
  | .decTtl n ids compat =>
    decide ((compat = Compat.ofpat11DecNwTtl ∧ n = 1 ∧ ids = [0]) ∨
            (compat = Compat.nxastDecTtl ∧ n = 1 ∧ ids = [0]) ∨
            (compat = Compat.nxastDecTtlCntIds ∧ ids.length = n))
  | .setTunnel tunId compat =>
    decide ((tunId ≤ 0xffffffff ∧ compat = Compat.nxastSetTunnel) ∨
            compat = Compat.nxastSetTunnel64)
  | .resubmit _ tableId compat =>
    decide ((tableId = 0xff ∧ compat = Compat.nxastResubmit) ∨
            compat = Compat.nxastResubmitTable)
  | .note d => decide ((10 + d.length) % 8 = 0)
  | .clearActions => false
  | .gotoTable _ => false
  | .meter _ => false
  | _ => true

/-- Claim-side shape predicate for the instruction-dialect round trip (C1),
after an optional leading meter record: one run of rt11-valid non-instruction
records, optionally followed by a single clear_actions, and nothing else (in
the _OFP_CENTEC_ configuration the decoder rejects write-metadata and
goto-table instructions, and the decoder materialises a meter first). -/
def rtInstTail (l : List Ofpact) : Bool :=
  (l.takeWhile (fun x => !ofpactIsInstruction x)).all rt11 &&
  (decide (l.dropWhile (fun x => !ofpactIsInstruction x) = []) ||
   decide (l.dropWhile (fun x => !ofpactIsInstruction x) = [Ofpact.clearActions]))

/-- Split an optional leading meter record off an internal list. -/
def stripMeter : List Ofpact → Option Nat × List Ofpact
  | Ofpact.meter m :: rest => (some m, rest)
  | l => (none, l)

/-- Claim-side validity predicate for the instruction-dialect round trip
(C1). -/
def rtInstList (A : List Ofpact) : Bool := rtInstTail (stripMeter A).2

/-- The order-verifier loop only ever reports UNSUPPORTED_ORDER. -/
theorem ofpacts_verify_from_none_or_unsupported :
    ∀ (l : List Ofpact) (prev : Nat),
      ofpacts_verify_from prev l = none ∨
        ofpacts_verify_from prev l = some Ofperr.unsupportedOrder := by
  intro l
  induction l with
  | nil => intro prev; left; rfl
  | cons a rest ih =>
    intro prev
    rw [ofpacts_verify_from]
    by_cases h : prev ≠ 0 ∧ instCategory a ≤ prev
    · right
      rw [if_pos h]
    · rw [if_neg h]
      exact ih (instCategory a)

/-- Soundness of the order-verifier loop: success implies the categories
ascend from the previous one (strictly after a non-apply category), so they
are non-decreasing and no non-apply category repeats. -/
theorem ofpacts_verify_from_sound :
    ∀ (l : List Ofpact) (prev : Nat), ofpacts_verify_from prev l = none →
      List.Chain' (· ≤ ·) (prev :: l.map instCategory) ∧
      (∀ x ∈ l.map instCategory, prev ≠ 0 → prev < x) ∧
      (∀ c ∈ l.map instCategory, c ≠ 0 → (l.map instCategory).count c ≤ 1) := by
  intro l
  induction l with
  | nil =>
    intro prev _
    refine ⟨List.chain'_singleton _, ?_, ?_⟩ <;> simp
  | cons a rest ih =>
    intro prev h
    rw [ofpacts_verify_from] at h
    by_cases hg : prev ≠ 0 ∧ instCategory a ≤ prev
    · rw [if_pos hg] at h
      cases h
    · rw [if_neg hg] at h
      obtain ⟨h1, h2, h3⟩ := ih (instCategory a) h
      push_neg at hg
      have hlt : prev ≠ 0 → prev < instCategory a := hg
      refine ⟨?_, ?_, ?_⟩
      · rw [List.map_cons]
        refine List.chain'_cons.mpr ⟨?_, h1⟩
        by_cases hp : prev = 0
        · omega
        · exact Nat.le_of_lt (hlt hp)
      · rw [List.map_cons]
        intro x hx hp
        rcases List.mem_cons.mp hx with hxa | hx2
        · omega
        · have hx3 := h2 x hx2
          have := hlt hp
          omega
      · rw [List.map_cons]
        intro c hc hc0
        rw [List.count_cons]
        by_cases hceq : c = instCategory a
        · rw [hceq] at hc0 ⊢
          have hzero : (rest.map instCategory).count (instCategory a) = 0 := by
            refine List.count_eq_zero.mpr (fun hmem => ?_)
            have := h2 (instCategory a) hmem hc0
            omega
          simp [hzero]
        · have hmem : c ∈ rest.map instCategory := by
            rcases List.mem_cons.mp hc with h4 | h4
            · exact absurd h4 hceq
            · exact h4
          have h5 := h3 c hmem hc0
          rw [beq_false_of_ne (fun he => hceq (Eq.symm he))]
          simpa using h5

/-- Completeness of the order-verifier loop: non-decreasing categories with
no repeated non-apply category pass. -/
theorem ofpacts_verify_from_complete :
    ∀ (l : List Ofpact) (prev : Nat),
      List.Chain' (· ≤ ·) (prev :: l.map instCategory) →
      (∀ c, c ≠ 0 → (prev :: l.map instCategory).count c ≤ 1) →
      ofpacts_verify_from prev l = none := by
  intro l
  induction l with
  | nil => intro prev _ _; rfl
  | cons a rest ih =>
    intro prev hch hcnt
    rw [List.map_cons] at hch hcnt
    have hle : prev ≤ instCategory a := (List.chain'_cons.mp hch).1
    rw [ofpacts_verify_from]
    have hguard : ¬(prev ≠ 0 ∧ instCategory a ≤ prev) := by
      rintro ⟨hp, hle2⟩
      have heq : instCategory a = prev := Nat.le_antisymm hle2 hle
      have hc := hcnt prev hp
      simp [List.count_cons, heq] at hc
    rw [if_neg hguard]
    apply ih
    · exact (List.chain'_cons.mp hch).2
    · intro c hc0
      have hc := hcnt c hc0
      have hmono : (instCategory a :: rest.map instCategory).count c
          ≤ (prev :: instCategory a :: rest.map instCategory).count c := by
        conv_rhs => rw [List.count_cons]
        exact Nat.le_add_right _ _
      omega

/-- C3 (confirmed): ofpacts_verify succeeds on an internal action list
exactly when the instruction categories of its records (apply for
non-instruction kinds; clear, write_metadata, goto_table for the synthetic
kinds) are non-decreasing in the order apply < clear < write_metadata <
goto_table with no repetition of a non-apply category, and any failure is
reported as OFPERR_OFPBAC_UNSUPPORTED_ORDER. -/
theorem c3_verify_order (l : List Ofpact) :
    (ofpacts_verify l = none ↔ specOrdered l) ∧
    (ofpacts_verify l ≠ none →
      ofpacts_verify l = some Ofperr.unsupportedOrder) := by
  constructor
  · constructor
    · intro h
      obtain ⟨h1, _, h3⟩ := ofpacts_verify_from_sound l 0 h
      exact ⟨(List.chain'_cons'.mp h1).2, h3⟩
    · rintro ⟨h1, h2⟩
      apply ofpacts_verify_from_complete
      · exact List.chain'_cons'.mpr ⟨fun y _ => Nat.zero_le y, h1⟩
      · intro c hc0
        rw [List.count_cons, beq_false_of_ne (fun he => hc0 (Eq.symm he))]
        simp only [if_false, Bool.false_eq_true, Nat.add_zero]
        by_cases hmem : c ∈ l.map instCategory
        · exact h2 c hmem hc0
        · simp [List.count_eq_zero.mpr hmem]
  · intro h
    rcases ofpacts_verify_from_none_or_unsupported l 0 with h0 | h0
    · exact absurd h0 h
    · exact h0

/-- Witness for C3: a duplicated clear_actions fails with
UNSUPPORTED_ORDER, and an ordered list passes. -/
theorem c3_verify_order_witness :
    ofpacts_verify [Ofpact.clearActions, Ofpact.clearActions]
      = some Ofperr.unsupportedOrder ∧
    specOrdered [Ofpact.output 1 2, Ofpact.clearActions] :=
  ⟨(c3_verify_order [Ofpact.clearActions, Ofpact.clearActions]).2 (by decide),
   (c3_verify_order [Ofpact.output 1 2, Ofpact.clearActions]).1.mp (by decide)⟩

/-- Per-record characterisation of ofpact_outputs_to_port. -/
theorem ofpact_outputs_to_port_iff (a : Ofpact) (p : Nat) :
    ofpact_outputs_to_port a p = true ↔ outputsToPortSpec a p := by
  cases a <;>
    simp [ofpact_outputs_to_port, outputsToPortSpec, eq_comm, and_comm]

/-- C10 (confirmed): ofpacts_output_to_port is true exactly when some record
is an output to the port, an enqueue to the port, or a controller action
while the port is the reserved CONTROLLER port; no other kind contributes. -/
theorem c10_outputs_to_port (l : List Ofpact) (p : Nat) :
    ofpacts_output_to_port l p = true ↔ ∃ a ∈ l, outputsToPortSpec a p := by
  unfold ofpacts_output_to_port
  rw [List.any_eq_true]
  constructor
  · rintro ⟨a, ha, hpa⟩
    exact ⟨a, ha, (ofpact_outputs_to_port_iff a p).mp hpa⟩
  · rintro ⟨a, ha, hpa⟩
    exact ⟨a, ha, (ofpact_outputs_to_port_iff a p).mpr hpa⟩

/-- C8 counterexample: the claim accepts an enqueue whose port equals
max_ports (5 ≤ 5), but the context check rejects port 5 with max_ports 5 as
BAD_OUT_PORT (the code tests port >= max_ports, i.e. acceptance needs
port < max_ports). -/
theorem c8_counterexample :
    ofpact_check (Ofpact.enqueue 5 0) 5 0 = (some Ofperr.badOutPort, 0) ∧
      5 ≤ 5 := by
  constructor
  · decide
  · decide

/-- C8 (amended): the 1.0 enqueue decoder accepts exactly the ports strictly
below the constant OFPP_MAX, or equal to IN_PORT or LOCAL, and the context
check accepts exactly the ports strictly below max_ports, or equal to
IN_PORT or LOCAL; any other port yields BAD_OUT_PORT. -/
theorem c8_enqueue_port_check (p q maxPorts dl : Nat) :
    ofpact_from_openflow10 (W10Action.enqueue p q)
        = ([Ofpact.enqueue p q],
           if p < OFPP_MAX ∨ p = OFPP_IN_PORT ∨ p = OFPP_LOCAL then none
           else some Ofperr.badOutPort) ∧
    ofpact_check (Ofpact.enqueue p q) maxPorts dl
        = (if p < maxPorts ∨ p = OFPP_IN_PORT ∨ p = OFPP_LOCAL then none
           else some Ofperr.badOutPort, dl) := by
  constructor
  · simp only [ofpact_from_openflow10]
    congr 1
    split_ifs with h1 h2 h2 <;>
      simp_all [OFPP_MAX, OFPP_IN_PORT, OFPP_LOCAL] <;> omega
  · simp only [ofpact_check]
    congr 1
    split_ifs with h1 h2 h2 <;>
      simp_all [OFPP_MAX, OFPP_IN_PORT, OFPP_LOCAL] <;> omega

/-- C7 (confirmed): the NX encoder for set_tunnel emits the 64-bit shape
exactly when the tunnel id does not fit in 32 bits or compat names
set_tunnel64, and the 32-bit shape when the id fits and compat does not name
set_tunnel64. -/
theorem c7_set_tunnel_shape (tunId : Nat) (compat : Compat) :
    (0xffffffff < tunId ∨ compat = Compat.nxastSetTunnel64 →
      ofpact_to_nxast (Ofpact.setTunnel tunId compat)
        = some (NxAction.setTunnel64 tunId)) ∧
    (tunId ≤ 0xffffffff → compat ≠ Compat.nxastSetTunnel64 →
      ofpact_to_nxast (Ofpact.setTunnel tunId compat)
        = some (NxAction.setTunnel tunId)) := by
  constructor
  · intro h
    simp only [ofpact_to_nxast]
    rw [if_neg]
    rintro ⟨hle, hne⟩
    rcases h with h | h
    · omega
    · exact hne h
  · intro h1 h2
    simp only [ofpact_to_nxast]
    rw [if_pos ⟨h1, h2⟩]

/-- Witness for C7: id 2^32 promotes to set_tunnel64; id 7 with compat
set_tunnel stays 32-bit, as does id 7 with compat INVALID. -/
theorem c7_set_tunnel_shape_witness :
    ofpact_to_nxast (Ofpact.setTunnel 0x100000000 Compat.invalid)
        = some (NxAction.setTunnel64 0x100000000) ∧
    ofpact_to_nxast (Ofpact.setTunnel 7 Compat.nxastSetTunnel)
        = some (NxAction.setTunnel 7) ∧
    ofpact_to_nxast (Ofpact.setTunnel 7 Compat.invalid)
        = some (NxAction.setTunnel 7) :=
  ⟨(c7_set_tunnel_shape 0x100000000 Compat.invalid).1 (Or.inl (by decide)),
   (c7_set_tunnel_shape 7 Compat.nxastSetTunnel).2 (by decide) (by decide),
   (c7_set_tunnel_shape 7 Compat.invalid).2 (by decide) (by decide)⟩

/-- C5 counterexample: encoding an internal dec_ttl with n_controllers 1,
ids [0] and compat INVALID emits the dec_ttl_cnt_ids wire shape, not the
plain NX dec_ttl shape the claim requires. -/
theorem c5_counterexample :
    ofpact_to_nxast (Ofpact.decTtl 1 [0] Compat.invalid)
        = some (NxAction.decTtlCntIds 1 [0, 0, 0, 0] [0, 0, 0, 0]) ∧
    ofpact_to_nxast (Ofpact.decTtl 1 [0] Compat.invalid)
        ≠ some NxAction.decTtl := by
  constructor
  · decide
  · decide

/-- C5 (amended): decoding the plain NX dec_ttl yields an internal record
with n_controllers 1, id list [0] and compat NXAST_DEC_TTL; the NX encoder
emits the plain shape exactly when compat is NXAST_DEC_TTL, and the
dec_ttl_cnt_ids shape for every other compat, including INVALID. -/
theorem c5_dec_ttl (n : Nat) (ids : List Nat) (compat : Compat) :
    ofpact_from_nxast NxAction.decTtl
        = ([Ofpact.decTtl 1 [0] Compat.nxastDecTtl], none) ∧
    (compat = Compat.nxastDecTtl →
      ofpact_to_nxast (Ofpact.decTtl n ids compat) = some NxAction.decTtl) ∧
    (compat ≠ Compat.nxastDecTtl →
      ofpact_to_nxast (Ofpact.decTtl n ids compat)
        = some (NxAction.decTtlCntIds n [0, 0, 0, 0]
            ((List.range (roundUp (2 * n) 8 / 2)).map
              (fun i => if i < n then ids.getD i 0 else 0)))) := by
  refine ⟨rfl, ?_, ?_⟩
  · intro h
    simp only [ofpact_to_nxast]
    rw [if_pos h]
  · intro h
    simp only [ofpact_to_nxast]
    rw [if_neg h]

/-- Witness for C5: the two encoder branches at concrete records. -/
theorem c5_dec_ttl_witness :
    ofpact_to_nxast (Ofpact.decTtl 1 [0] Compat.nxastDecTtl)
        = some NxAction.decTtl ∧
    ofpact_to_nxast (Ofpact.decTtl 2 [3, 4] Compat.nxastDecTtlCntIds)
        = some (NxAction.decTtlCntIds 2 [0, 0, 0, 0]
            ((List.range (roundUp (2 * 2) 8 / 2)).map
              (fun i => if i < 2 then [3, 4].getD i 0 else 0))) :=
  ⟨(c5_dec_ttl 1 [0] Compat.nxastDecTtl).2.1 rfl,
   (c5_dec_ttl 2 [3, 4] Compat.nxastDecTtlCntIds).2.2 (by decide)⟩

/-- C6 counterexample: a note with 3 payload bytes is emitted with 3
alignment zeros (wire region [1,2,3,0,0,0]); decoding that wire record
stores all 6 region bytes, so the internal length field includes the wire's
trailing alignment zeros instead of excluding them. -/
theorem c6_counterexample :
    ofpact_to_nxast (Ofpact.note [1, 2, 3])
        = some (NxAction.note [1, 2, 3, 0, 0, 0]) ∧
    ofpact_from_nxast (NxAction.note [1, 2, 3, 0, 0, 0])
        = ([Ofpact.note [1, 2, 3, 0, 0, 0]], none) ∧
    ([1, 2, 3, 0, 0, 0] : List Nat).length ≠ ([1, 2, 3] : List Nat).length := by
  refine ⟨?_, ?_, ?_⟩ <;> decide

/-- C6 (amended): the note decoder copies exactly wire.len minus the 10-byte
fixed prefix into the internal record, and the recorded length equals that
count, which includes any trailing alignment zero bytes of the wire record;
re-encoding an already aligned payload reproduces the same wire bytes. -/
theorem c6_note (data : List Nat) :
    ofpact_from_nxast (NxAction.note data) = ([Ofpact.note data], none) ∧
    data.length = nx_action_note_len data - 10 ∧
    ((10 + data.length) % 8 = 0 →
      ofpact_to_nxast (Ofpact.note data) = some (NxAction.note data)) := by
  refine ⟨rfl, by simp [nx_action_note_len], ?_⟩
  intro h
  simp [ofpact_to_nxast, h]

/-- Witness for C6: a 6-byte payload needs no padding and re-encodes to the
same wire region. -/
theorem c6_note_witness :
    ofpact_to_nxast (Ofpact.note [1, 2, 3, 4, 5, 6])
        = some (NxAction.note [1, 2, 3, 4, 5, 6]) :=
  (c6_note [1, 2, 3, 4, 5, 6]).2.2 (by decide)

/-- C4 counterexample: an NX resubmit_table record with a non-zero pad byte
is rejected with OFPERR_OFPBAC_BAD_ARGUMENT, not with the MUST_BE_ZERO error
the claim requires. -/
theorem c4_counterexample :
    ofpact_from_nxast (NxAction.resubmitTable 0 0 1 0 0)
        = ([], some Ofperr.badArgument) ∧
    Ofperr.badArgument ≠ Ofperr.mustBeZero := by
  constructor
  · decide
  · decide

/-- C4 (amended): every reserved-zero region is checked, but the error
differs by action: resubmit_table pad bytes and output_reg zero bytes are
rejected with BAD_ARGUMENT, while write_metadata zeros and dec_ttl_cnt_ids
zeros are rejected with NXBRC_MUST_BE_ZERO (dec_ttl_cnt_ids after its
partial record was appended). -/
theorem c4_reserved_zero :
    (∀ ip t p0 p1 p2 : Nat, p0 ≠ 0 ∨ p1 ≠ 0 ∨ p2 ≠ 0 →
      ofpact_from_nxast (NxAction.resubmitTable ip t p0 p1 p2)
        = ([], some Ofperr.badArgument)) ∧
    (∀ naor : NxActionOutputReg, is_all_zeros naor.zero = false →
      output_reg_from_openflow naor = ([], some Ofperr.badArgument)) ∧
    (∀ (md mask : Nat) (zeros : List Nat), is_all_zeros zeros = false →
      ofpact_from_nxast (NxAction.writeMetadata md mask zeros)
        = ([], some Ofperr.mustBeZero)) ∧
    (∀ (n : Nat) (zeros ids : List Nat), is_all_zeros zeros = false →
      ofpact_from_nxast (NxAction.decTtlCntIds n zeros ids)
        = ([Ofpact.decTtl n [] Compat.nxastDecTtlCntIds],
           some Ofperr.mustBeZero)) := by
  refine ⟨?_, ?_, ?_, ?_⟩
  · intro ip t p0 p1 p2 h
    simp [ofpact_from_nxast, h]
  · intro naor h
    simp [output_reg_from_openflow, h]
  · intro md mask zeros h
    simp [ofpact_from_nxast, h]
  · intro n zeros ids h
    simp [ofpact_from_nxast, h]

/-- Witness for C4: each decoder at a concrete record with a non-zero
reserved byte. -/
theorem c4_reserved_zero_witness :
    ofpact_from_nxast (NxAction.resubmitTable 3 7 0 1 0)
        = ([], some Ofperr.badArgument) ∧
    output_reg_from_openflow ⟨1, 2, 3, [9]⟩ = ([], some Ofperr.badArgument) ∧
    ofpact_from_nxast (NxAction.writeMetadata 5 6 [0, 2, 0, 0, 0, 0])
        = ([], some Ofperr.mustBeZero) ∧
    ofpact_from_nxast (NxAction.decTtlCntIds 1 [7, 0, 0, 0] [0])
        = ([Ofpact.decTtl 1 [] Compat.nxastDecTtlCntIds],
           some Ofperr.mustBeZero) :=
  ⟨c4_reserved_zero.1 3 7 0 1 0 (by decide),
   c4_reserved_zero.2.1 ⟨1, 2, 3, [9]⟩ (by decide),
   c4_reserved_zero.2.2.1 5 6 [0, 2, 0, 0, 0, 0] (by decide),
   c4_reserved_zero.2.2.2 1 [7, 0, 0, 0] [0] (by decide)⟩

/-- Any error from ofpacts_pull_actions leaves the output buffer empty. -/
theorem ofpacts_pull_actions_error {α : Type}
    (f : α → List Ofpact × Option Ofperr) (w : List α) (e : Ofperr)
    (l : List Ofpact) (h : ofpacts_pull_actions f w = (some e, l)) : l = [] := by
  unfold ofpacts_pull_actions at h
  split at h
  · simp only [Prod.mk.injEq] at h
    exact h.2.symm
  · split at h
    · simp only [Prod.mk.injEq] at h
      exact h.2.symm
    · simp only [Prod.mk.injEq] at h
      exact absurd h.1 (by simp)

/-- Any error from the instruction finish checks leaves the buffer empty. -/
theorem pullInstsFinish_error (s : InstSet) (buf : List Ofpact) (e : Ofperr)
    (l : List Ofpact) (h : pullInstsFinish s buf = (some e, l)) : l = [] := by
  unfold pullInstsFinish at h
  split_ifs at h with h1 h2
  · simp only [Prod.mk.injEq] at h
    exact h.2.symm
  · simp only [Prod.mk.injEq] at h
    exact h.2.symm
  · split at h
    · simp only [Prod.mk.injEq] at h
      exact h.2.symm
    · simp only [Prod.mk.injEq] at h
      exact absurd h.1 (by simp)

/-- Any error from the instruction materialisation leaves the buffer
empty. -/
theorem pullInstsAux_error (s : InstSet) (e : Ofperr) (l : List Ofpact)
    (h : pullInstsAux s = (some e, l)) : l = [] := by
  unfold pullInstsAux at h
  split at h
  · simp only [Prod.mk.injEq] at h
    exact h.2.symm
  · split at h
    · split at h
      · simp only [Prod.mk.injEq] at h
        exact h.2.symm
      · split at h
        · simp only [Prod.mk.injEq] at h
          exact h.2.symm
        · exact pullInstsFinish_error _ _ _ _ h
    · exact pullInstsFinish_error _ _ _ _ h

/-- C2 (confirmed): whenever the 1.0 action decoder, the 1.1 action decoder
or the 1.1 instruction decoder returns an error (from per-kind decoding,
instruction framing, or order verification), the internal output buffer is
left empty. -/
theorem c2_error_clears :
    (∀ (w : List W10Action) (e : Ofperr) (l : List Ofpact),
      ofpacts_pull_openflow10 w = (some e, l) → l = []) ∧
    (∀ (w : List W11Action) (e : Ofperr) (l : List Ofpact),
      ofpacts_pull_openflow11_actions w = (some e, l) → l = []) ∧
    (∀ (w : List W11Instruction) (e : Ofperr) (l : List Ofpact),
      ofpacts_pull_openflow11_instructions w = (some e, l) → l = []) := by
  refine ⟨?_, ?_, ?_⟩
  · intro w e l h
    exact ofpacts_pull_actions_error _ w e l h
  · intro w e l h
    exact ofpacts_pull_actions_error _ w e l h
  · intro w e l h
    unfold ofpacts_pull_openflow11_instructions at h
    rcases hd : decode_openflow11_instructions w InstSet.empty with e2 | s <;>
      rw [hd] at h
    · simp only [Prod.mk.injEq] at h
      exact h.2.symm
    · exact pullInstsAux_error s e l h

/-- Witness for C2: concrete erroring inputs for each decoder leave the
buffer empty. -/
theorem c2_error_clears_witness :
    (ofpacts_pull_openflow10 [W10Action.setVlanVid 4096]).2 = [] ∧
    (ofpacts_pull_openflow11_actions [W11Action.setVlanVid 4096]).2 = [] ∧
    (ofpacts_pull_openflow11_instructions [W11Instruction.gotoTable 1]).2 = [] :=
  ⟨c2_error_clears.1 [W10Action.setVlanVid 4096] Ofperr.badArgument _ (by decide),
   c2_error_clears.2.1 [W11Action.setVlanVid 4096] Ofperr.badArgument _ (by decide),
   c2_error_clears.2.2 [W11Instruction.gotoTable 1] Ofperr.unsupInst _ (by decide)⟩

/-- Alignment produces multiples of 8. -/
theorem align8_mod8 (n : Nat) : align8 n % 8 = 0 := by
  unfold align8
  omega

/-- Alignment distributes over adding an aligned prefix. -/
theorem align8_add_left (m n : Nat) (h : m % 8 = 0) :
    align8 (m + n) = m + align8 n := by
  unfold align8
  omega

/-- The aligned buffer size equals the sum of the per-record aligned
lengths. -/
theorem foldl_putSize (l : List Ofpact) :
    ∀ s : Nat, align8 (l.foldl ofpactPutSize s) = align8 s + (l.map ofpactLen).sum := by
  induction l with
  | nil => intro s; simp
  | cons a t ih =>
    intro s
    rw [List.foldl_cons, ih]
    show align8 (ofpactPutSize s a) + _ = _
    unfold ofpactPutSize
    rw [align8_add_left _ _ (align8_mod8 s)]
    simp only [List.map_cons, List.sum_cons]
    unfold ofpactLen
    omega

/-- The decoded buffer size is the sum of the record len fields. -/
theorem decodedSize_eq (l : List Ofpact) :
    ofpactsDecodedSize l = (l.map ofpactLen).sum := by
  unfold ofpactsDecodedSize
  rw [foldl_putSize l 0]
  simp [align8]

/-- C9 (confirmed, spec-modelled layout): after a successful decode by any
of the three entry points, every internal record has a len field that is a
multiple of 8, and the record lens sum to the buffer's byte size. -/
theorem c9_len_invariant :
    (∀ (w : List W10Action) (l : List Ofpact),
      ofpacts_pull_openflow10 w = (none, l) →
        (∀ r ∈ l, ofpactLen r % 8 = 0) ∧
          (l.map ofpactLen).sum = ofpactsDecodedSize l) ∧
    (∀ (w : List W11Action) (l : List Ofpact),
      ofpacts_pull_openflow11_actions w = (none, l) →
        (∀ r ∈ l, ofpactLen r % 8 = 0) ∧
          (l.map ofpactLen).sum = ofpactsDecodedSize l) ∧
    (∀ (w : List W11Instruction) (l : List Ofpact),
      ofpacts_pull_openflow11_instructions w = (none, l) →
        (∀ r ∈ l, ofpactLen r % 8 = 0) ∧
          (l.map ofpactLen).sum = ofpactsDecodedSize l) := by
  refine ⟨?_, ?_, ?_⟩ <;> intro w l _ <;>
    exact ⟨fun r _ => align8_mod8 _, (decodedSize_eq l).symm⟩

/-- Witness for C9: concrete successful decodes for each entry point. -/
theorem c9_len_invariant_witness :
    ((∀ r ∈ [Ofpact.stripVlan], ofpactLen r % 8 = 0) ∧
      ([Ofpact.stripVlan].map ofpactLen).sum
        = ofpactsDecodedSize [Ofpact.stripVlan]) ∧
    ((∀ r ∈ [Ofpact.pushVlan 0x8100], ofpactLen r % 8 = 0) ∧
      ([Ofpact.pushVlan 0x8100].map ofpactLen).sum
        = ofpactsDecodedSize [Ofpact.pushVlan 0x8100]) ∧
    ((∀ r ∈ [Ofpact.clearActions], ofpactLen r % 8 = 0) ∧
      ([Ofpact.clearActions].map ofpactLen).sum
        = ofpactsDecodedSize [Ofpact.clearActions]) :=
  ⟨c9_len_invariant.1 [W10Action.stripVlan] [Ofpact.stripVlan] (by decide),
   c9_len_invariant.2.1 [W11Action.pushVlan 0x8100] [Ofpact.pushVlan 0x8100]
     (by decide),
   c9_len_invariant.2.2 [W11Instruction.clearActions] [Ofpact.clearActions]
     (by decide)⟩

/-- Decoding a concatenation continues from the buffer a clean prefix
leaves. -/
theorem ofpacts_from_openflow_append {α : Type}
    (f : α → List Ofpact × Option Ofperr) :
    ∀ (xs ys : List α) (buf buf2 : List Ofpact),
      ofpacts_from_openflow f xs buf = (buf2, none) →
      ofpacts_from_openflow f (xs ++ ys) buf = ofpacts_from_openflow f ys buf2 := by
  intro xs
  induction xs with
  | nil =>
    intro ys buf buf2 h
    simp only [ofpacts_from_openflow, Prod.mk.injEq] at h
    rw [List.nil_append, h.1]
  | cons a rest ih =>
    intro ys buf buf2 h
    rw [List.cons_append]
    rcases hfa : f a with ⟨recs, err⟩
    rw [ofpacts_from_openflow, hfa] at h
    rw [ofpacts_from_openflow, hfa]
    cases err with
    | some e =>
      simp only [Prod.mk.injEq] at h
      exact absurd h.2 (by simp)
    | none => exact ih ys (buf ++ recs) buf2 h

/-- The first n entries of the encoder's controller-id region are the ids
themselves. -/
theorem take_range_getD (ids : List Nat) (n w : Nat) (hlen : ids.length = n)
    (hw : n ≤ w) :
    ((List.range w).map (fun i => if i < n then ids.getD i 0 else 0)).take n
      = ids := by
  apply List.ext_getElem?
  intro i
  by_cases hi : i < n
  · have hiw : i < w := Nat.lt_of_lt_of_le hi hw
    have hii : i < ids.length := by omega
    rw [List.getElem?_take_of_lt hi]
    simp [hiw, hi, List.getD_eq_getElem?_getD, List.getElem?_eq_getElem hii]
  · have h1 : (((List.range w).map
        (fun i => if i < n then ids.getD i 0 else 0)).take n).length ≤ i := by
      simp
      omega
    have h2 : ids.length ≤ i := by omega
    rw [List.getElem?_eq_none h1, List.getElem?_eq_none h2]

/-- Decoding the encoder's dec_ttl_cnt_ids wire form recovers the internal
record. -/
theorem from_nxast_cntIds (n : Nat) (ids : List Nat) (hlen : ids.length = n) :
    ofpact_from_nxast (NxAction.decTtlCntIds n [0, 0, 0, 0]
      ((List.range (roundUp (2 * n) 8 / 2)).map
        (fun i => if i < n then ids.getD i 0 else 0)))
      = ([Ofpact.decTtl n ids Compat.nxastDecTtlCntIds], none) := by
  have hw : n ≤ roundUp (2 * n) 8 / 2 := by
    unfold roundUp
    omega
  have hnl : ¬(2 * (roundUp (2 * n) 8 / 2) < n * 2) := by omega
  have htake := take_range_getD ids n (roundUp (2 * n) 8 / 2) hlen hw
  rw [ofpact_from_nxast]
  rw [if_neg (by decide)]
  rw [List.length_map, List.length_range]
  rw [if_neg hnl]
  rw [htake]

/-- Per-record 1.0 round trip: decoding the 1.0 encoding of an rt10-valid
record appends exactly that record. -/
theorem dec10_single (a : Ofpact) (h : rt10 a = true) (buf : List Ofpact) :
    ofpacts_from_openflow ofpact_from_openflow10 (ofpact_to_openflow10 a) buf
      = (buf ++ [a], none) := by
  cases a with
  | output p m =>
    simp only [rt10, decide_eq_true_eq] at h
    simp [ofpact_to_openflow10, ofpacts_from_openflow, ofpact_from_openflow10, h]
  | enqueue p q =>
    simp only [rt10, decide_eq_true_eq] at h
    have hc : ¬(OFPP_MAX ≤ p ∧ p ≠ OFPP_IN_PORT ∧ p ≠ OFPP_LOCAL) := by
      simp only [OFPP_MAX, OFPP_IN_PORT, OFPP_LOCAL] at h ⊢
      omega
    simp [ofpact_to_openflow10, ofpacts_from_openflow, ofpact_from_openflow10, hc]
  | setVlanVid v =>
    simp only [rt10, decide_eq_true_eq] at h
    simp [ofpact_to_openflow10, ofpacts_from_openflow, ofpact_from_openflow10, h]
  | setVlanPcp c =>
    simp only [rt10, decide_eq_true_eq] at h
    simp [ofpact_to_openflow10, ofpacts_from_openflow, ofpact_from_openflow10, h]
  | stripVlan =>
    simp [ofpact_to_openflow10, ofpacts_from_openflow, ofpact_from_openflow10]
  | setEthSrc mac =>
    simp [ofpact_to_openflow10, ofpacts_from_openflow, ofpact_from_openflow10]
  | setEthDst mac =>
    simp [ofpact_to_openflow10, ofpacts_from_openflow, ofpact_from_openflow10]
  | setIpv4Src ip =>
    simp [ofpact_to_openflow10, ofpacts_from_openflow, ofpact_from_openflow10]
  | setIpv4Dst ip =>
    simp [ofpact_to_openflow10, ofpacts_from_openflow, ofpact_from_openflow10]
  | setIpv4Dscp t =>
    simp only [rt10, decide_eq_true_eq] at h
    simp [ofpact_to_openflow10, ofpacts_from_openflow, ofpact_from_openflow10, h]
  | setL4SrcPort p =>
    simp [ofpact_to_openflow10, ofpacts_from_openflow, ofpact_from_openflow10]
  | setL4DstPort p =>
    simp [ofpact_to_openflow10, ofpacts_from_openflow, ofpact_from_openflow10]
  | controller m i r =>
    simp [ofpact_to_openflow10, ofpact_to_nxast, ofpacts_from_openflow,
          ofpact_from_openflow10, ofpact_from_nxast]
  | decTtl n ids compat =>
    simp only [rt10, decide_eq_true_eq] at h
    rcases h with ⟨hcmp, hn, hids⟩ | ⟨hcmp, hlen⟩
    · subst hcmp; subst hn; subst hids
      simp [ofpact_to_openflow10, ofpact_to_nxast, ofpacts_from_openflow,
            ofpact_from_openflow10, ofpact_from_nxast]
    · subst hcmp
      have hdec := from_nxast_cntIds n ids hlen
      have henc : ofpact_to_openflow10 (Ofpact.decTtl n ids Compat.nxastDecTtlCntIds)
          = [W10Action.vendor (NxAction.decTtlCntIds n [0, 0, 0, 0]
              ((List.range (roundUp (2 * n) 8 / 2)).map
                (fun i => if i < n then ids.getD i 0 else 0)))] := rfl
      rw [henc]
      simp only [ofpacts_from_openflow, ofpact_from_openflow10]
      rw [hdec]
  | setTunnel tunId compat =>
    simp only [rt10, decide_eq_true_eq] at h
    rcases h with ⟨hle, hcmp⟩ | hcmp
    · subst hcmp
      simp [ofpact_to_openflow10, ofpact_to_nxast, ofpacts_from_openflow,
            ofpact_from_openflow10, ofpact_from_nxast, hle]
    · subst hcmp
      simp [ofpact_to_openflow10, ofpact_to_nxast, ofpacts_from_openflow,
            ofpact_from_openflow10, ofpact_from_nxast]
  | setQueue q =>
    simp [ofpact_to_openflow10, ofpact_to_nxast, ofpacts_from_openflow,
          ofpact_from_openflow10, ofpact_from_nxast]
  | popQueue =>
    simp [ofpact_to_openflow10, ofpact_to_nxast, ofpacts_from_openflow,
          ofpact_from_openflow10, ofpact_from_nxast]
  | finTimeout idle hard =>
    simp [ofpact_to_openflow10, ofpact_to_nxast, ofpacts_from_openflow,
          ofpact_from_openflow10, ofpact_from_nxast]
  | resubmit inPort tableId compat =>
    simp only [rt10, decide_eq_true_eq] at h
    rcases h with ⟨ht, hcmp⟩ | hcmp
    · subst hcmp; subst ht
      simp [ofpact_to_openflow10, ofpact_to_nxast, ofpacts_from_openflow,
            ofpact_from_openflow10, ofpact_from_nxast]
    · subst hcmp
      simp [ofpact_to_openflow10, ofpact_to_nxast, ofpacts_from_openflow,
            ofpact_from_openflow10, ofpact_from_nxast]
  | note d =>
    simp only [rt10, decide_eq_true_eq] at h
    simp [ofpact_to_openflow10, ofpact_to_nxast, ofpacts_from_openflow,
          ofpact_from_openflow10, ofpact_from_nxast, h]
  | exitAct =>
    simp [ofpact_to_openflow10, ofpact_to_nxast, ofpacts_from_openflow,
          ofpact_from_openflow10, ofpact_from_nxast]
  | writeMetadata md mask =>
    simp [ofpact_to_openflow10, ofpact_to_nxast, ofpacts_from_openflow,
          ofpact_from_openflow10, ofpact_from_nxast, is_all_zeros]
  | clearActions => simp [rt10] at h
  | gotoTable tableId => simp [rt10] at h
  | pushVlan e => simp [rt10] at h
  | pushMpls e =>
    simp only [rt10] at h
    simp [ofpact_to_openflow10, ofpact_to_nxast, ofpacts_from_openflow,
          ofpact_from_openflow10, ofpact_from_nxast, h]
  | popMpls e =>
    simp only [rt10, Bool.not_eq_true'] at h
    simp [ofpact_to_openflow10, ofpact_to_nxast, ofpacts_from_openflow,
          ofpact_from_openflow10, ofpact_from_nxast, h]
  | pushL2 =>
    simp [ofpact_to_openflow10, ofpact_to_nxast, ofpacts_from_openflow,
          ofpact_from_openflow10, ofpact_from_nxast]
  | popL2 =>
    simp [ofpact_to_openflow10, ofpact_to_nxast, ofpacts_from_openflow,
          ofpact_from_openflow10, ofpact_from_nxast]
  | setMplsTtl t => simp [rt10] at h
  | group g => simp [rt10] at h
  | meter m => simp [rt10] at h

/-- List-level 1.0 round trip of the translate stage. -/
theorem dec10_list :
    ∀ (A : List Ofpact), A.all rt10 = true → ∀ buf : List Ofpact,
      ofpacts_from_openflow ofpact_from_openflow10 (ofpacts_put_openflow10 A) buf
        = (buf ++ A, none) := by
  intro A
  induction A with
  | nil =>
    intro _ buf
    simp [ofpacts_put_openflow10, ofpacts_from_openflow]
  | cons a rest ih =>
    intro h buf
    rw [List.all_cons, Bool.and_eq_true] at h
    rw [ofpacts_put_openflow10,
        ofpacts_from_openflow_append _ _ _ _ _ (dec10_single a h.1 buf),
        ih h.2 (buf ++ [a])]
    simp

/-- The 32-bit port mapping is inverted by the decoder for ordinary and
reserved ports. -/
theorem port_from_to (p : Nat)
    (h : p < OFPP_MAX ∨ (OFPP_IN_PORT ≤ p ∧ p ≤ OFPP_LOCAL)) :
    ofputil_port_from_ofp11 (ofputil_port_to_ofp11 p) = Except.ok p := by
  unfold ofputil_port_to_ofp11 ofputil_port_from_ofp11
  rcases h with h | h
  · rw [if_pos h, if_pos h]
  · have h1 : ¬p < OFPP_MAX := by
      simp only [OFPP_MAX, OFPP_IN_PORT, OFPP_LOCAL] at h ⊢
      omega
    rw [if_neg h1]
    rw [if_neg (show ¬0xffff0000 + p < OFPP_MAX by
      simp only [OFPP_MAX]
      omega)]
    rw [if_pos (show 0xffff0000 + OFPP_IN_PORT ≤ 0xffff0000 + p ∧
        0xffff0000 + p ≤ 0xffff0000 + 0xffff by
      simp only [OFPP_IN_PORT, OFPP_LOCAL] at h ⊢
      omega)]
    rw [show 0xffff0000 + p - 0xffff0000 = p by omega]

/-- An ordinary or reserved (non-NONE, non-MAX) port passes the generic
output-port check against OFPP_MAX. -/
theorem check_output_port_ok (p : Nat)
    (h : p < OFPP_MAX ∨ (OFPP_IN_PORT ≤ p ∧ p ≤ OFPP_LOCAL)) :
    ofputil_check_output_port p OFPP_MAX = none := by
  unfold ofputil_check_output_port
  rcases h with h | h
  · rw [if_neg (by
      simp only [OFPP_MAX, OFPP_IN_PORT, OFPP_TABLE, OFPP_NORMAL, OFPP_FLOOD,
        OFPP_ALL, OFPP_CONTROLLER, OFPP_LOCAL] at h ⊢
      omega), if_pos h]
  · rw [if_pos (by
      simp only [OFPP_MAX, OFPP_IN_PORT, OFPP_TABLE, OFPP_NORMAL, OFPP_FLOOD,
        OFPP_ALL, OFPP_CONTROLLER, OFPP_LOCAL] at h ⊢
      omega)]

/-- Per-record 1.1 round trip: an rt11-valid record encodes to exactly one
1.1 wire action, which decodes back to the record. -/
theorem dec11_single (a : Ofpact) (h : rt11 a = true) :
    ∃ w : W11Action, ofpact_to_openflow11 a = some [w] ∧
      ofpact_from_openflow11 w = ([a], none) := by
  cases a with
  | output p m =>
    simp only [rt11, decide_eq_true_eq] at h
    refine ⟨W11Action.output (ofputil_port_to_ofp11 p) m, rfl, ?_⟩
    rw [ofpact_from_openflow11, port_from_to p h]
    dsimp only
    rw [check_output_port_ok p h]
  | enqueue p q => simp [rt11] at h
  | setVlanVid v =>
    simp only [rt11, decide_eq_true_eq] at h
    exact ⟨W11Action.setVlanVid v, rfl, by simp [ofpact_from_openflow11, h]⟩
  | setVlanPcp c =>
    simp only [rt11, decide_eq_true_eq] at h
    exact ⟨W11Action.setVlanPcp c, rfl, by simp [ofpact_from_openflow11, h]⟩
  | stripVlan => exact ⟨W11Action.popVlan, rfl, rfl⟩
  | pushVlan e => exact ⟨W11Action.pushVlan e, rfl, rfl⟩
  | setEthSrc mac => exact ⟨W11Action.setDlSrc mac, rfl, rfl⟩
  | setEthDst mac => exact ⟨W11Action.setDlDst mac, rfl, rfl⟩
  | setIpv4Src ip => exact ⟨W11Action.setNwSrc ip, rfl, rfl⟩
  | setIpv4Dst ip => exact ⟨W11Action.setNwDst ip, rfl, rfl⟩
  | setIpv4Dscp t =>
    simp only [rt11, decide_eq_true_eq] at h
    exact ⟨W11Action.setNwTos t, rfl, by simp [ofpact_from_openflow11, h]⟩
  | setL4SrcPort p => exact ⟨W11Action.setTpSrc p, rfl, rfl⟩
  | setL4DstPort p => exact ⟨W11Action.setTpDst p, rfl, rfl⟩
  | controller m i r =>
    exact ⟨W11Action.experimenter (NxAction.controller m i r), rfl, rfl⟩
  | decTtl n ids compat =>
    simp only [rt11, decide_eq_true_eq] at h
    rcases h with ⟨hc, hn, hi⟩ | ⟨hc, hn, hi⟩ | ⟨hc, hlen⟩
    · subst hc; subst hn; subst hi
      exact ⟨W11Action.decNwTtl, rfl, rfl⟩
    · subst hc; subst hn; subst hi
      exact ⟨W11Action.experimenter NxAction.decTtl, rfl, rfl⟩
    · subst hc
      refine ⟨W11Action.experimenter (NxAction.decTtlCntIds n [0, 0, 0, 0]
        ((List.range (roundUp (2 * n) 8 / 2)).map
          (fun i => if i < n then ids.getD i 0 else 0))), ?_, ?_⟩
      · rw [ofpact_to_openflow11, ofpact_dec_ttl_to_openflow11]
        rw [if_neg (by
          rintro ⟨-, -, h3 | h3⟩ <;> exact absurd h3 (by decide))]
        rw [ofpact_to_nxast]
        rw [if_neg (by decide)]
      · rw [show ofpact_from_openflow11 (W11Action.experimenter
            (NxAction.decTtlCntIds n [0, 0, 0, 0]
              ((List.range (roundUp (2 * n) 8 / 2)).map
                (fun i => if i < n then ids.getD i 0 else 0))))
            = ofpact_from_nxast (NxAction.decTtlCntIds n [0, 0, 0, 0]
              ((List.range (roundUp (2 * n) 8 / 2)).map
                (fun i => if i < n then ids.getD i 0 else 0))) from rfl]
        exact from_nxast_cntIds n ids hlen
  | setTunnel tunId compat =>
    simp only [rt11, decide_eq_true_eq] at h
    rcases h with ⟨hle, hc⟩ | hc
    · subst hc
      refine ⟨W11Action.experimenter (NxAction.setTunnel tunId), ?_, rfl⟩
      have hnx : ofpact_to_nxast (Ofpact.setTunnel tunId Compat.nxastSetTunnel)
          = some (NxAction.setTunnel tunId) := by
        rw [ofpact_to_nxast, if_pos ⟨hle, by decide⟩]
      rw [ofpact_to_openflow11.eq_def]
      dsimp only
      rw [hnx]
    · subst hc
      refine ⟨W11Action.experimenter (NxAction.setTunnel64 tunId), ?_, rfl⟩
      have hnx : ofpact_to_nxast (Ofpact.setTunnel tunId Compat.nxastSetTunnel64)
          = some (NxAction.setTunnel64 tunId) := by
        rw [ofpact_to_nxast, if_neg (fun hand => hand.2 rfl)]
      rw [ofpact_to_openflow11.eq_def]
      dsimp only
      rw [hnx]
  | setQueue q => exact ⟨W11Action.setQueue q, rfl, rfl⟩
  | popQueue => exact ⟨W11Action.experimenter NxAction.popQueue, rfl, rfl⟩
  | finTimeout idle hard =>
    exact ⟨W11Action.experimenter (NxAction.finTimeout idle hard), rfl, rfl⟩
  | resubmit inPort tableId compat =>
    simp only [rt11, decide_eq_true_eq] at h
    rcases h with ⟨ht, hc⟩ | hc
    · subst hc; subst ht
      refine ⟨W11Action.experimenter (NxAction.resubmit inPort), ?_, rfl⟩
      have hnx : ofpact_to_nxast
          (Ofpact.resubmit inPort 0xff Compat.nxastResubmit)
          = some (NxAction.resubmit inPort) := by
        rw [ofpact_to_nxast, if_pos ⟨rfl, by decide⟩]
      rw [ofpact_to_openflow11.eq_def]
      dsimp only
      rw [hnx]
    · subst hc
      refine ⟨W11Action.experimenter
        (NxAction.resubmitTable inPort tableId 0 0 0), ?_, rfl⟩
      have hnx : ofpact_to_nxast
          (Ofpact.resubmit inPort tableId Compat.nxastResubmitTable)
          = some (NxAction.resubmitTable inPort tableId 0 0 0) := by
        rw [ofpact_to_nxast, if_neg (fun hand => hand.2 rfl)]
      rw [ofpact_to_openflow11.eq_def]
      dsimp only
      rw [hnx]
  | note d =>
    simp only [rt11, decide_eq_true_eq] at h
    refine ⟨W11Action.experimenter (NxAction.note d), ?_, rfl⟩
    have hnx : ofpact_to_nxast (Ofpact.note d) = some (NxAction.note d) := by
      rw [ofpact_to_nxast, if_pos h]
      simp
    rw [ofpact_to_openflow11.eq_def]
    dsimp only
    rw [hnx]
  | exitAct => exact ⟨W11Action.experimenter NxAction.exitAct, rfl, rfl⟩
  | writeMetadata md mask => simp [rt11] at h
  | clearActions => simp [rt11] at h
  | gotoTable t => simp [rt11] at h
  | pushMpls e => exact ⟨W11Action.pushMpls e, rfl, rfl⟩
  | popMpls e => exact ⟨W11Action.popMpls e, rfl, rfl⟩
  | pushL2 => exact ⟨W11Action.experimenter NxAction.pushL2, rfl, rfl⟩
  | popL2 => exact ⟨W11Action.experimenter NxAction.popL2, rfl, rfl⟩
  | setMplsTtl t => exact ⟨W11Action.setMplsTtl t, rfl, rfl⟩
  | group g => exact ⟨W11Action.group g, rfl, rfl⟩
  | meter m => simp [rt11] at h

/-- List-level 1.1 round trip of the translate stage: an rt11-valid list
encodes to one wire action per record, and decoding appends the list. -/
theorem dec11_list :
    ∀ (A : List Ofpact), A.all rt11 = true →
      ∃ W : List W11Action, ofpacts_put_openflow11_actions A = some W ∧
        W.length = A.length ∧
        ∀ buf : List Ofpact,
          ofpacts_from_openflow ofpact_from_openflow11 W buf = (buf ++ A, none) := by
  intro A
  induction A with
  | nil =>
    intro _
    exact ⟨[], rfl, rfl, fun buf => by simp [ofpacts_from_openflow]⟩
  | cons a rest ih =>
    intro h
    rw [List.all_cons, Bool.and_eq_true] at h
    obtain ⟨w, hw, hdec⟩ := dec11_single a h.1
    obtain ⟨W, hW, hlen, hfold⟩ := ih h.2
    refine ⟨w :: W, ?_, by simp [hlen], ?_⟩
    · rw [ofpacts_put_openflow11_actions, hw, hW]
      rfl
    · intro buf
      rw [ofpacts_from_openflow, hdec]
      dsimp only
      rw [hfold (buf ++ [a])]
      simp

/-- Non-instruction kinds sit in the apply-actions category. -/
theorem instCategory_eq_zero (a : Ofpact) (h : ofpactIsInstruction a = false) :
    instCategory a = 0 := by
  cases a <;> first
    | rfl
    | simp [ofpactIsInstruction] at h

/-- The order verifier accepts a run of apply-category records optionally
followed by one clear_actions. -/
theorem verify_cat0_tail :
    ∀ (l : List Ofpact), (∀ a ∈ l, instCategory a = 0) →
      ∀ (tail : List Ofpact), (tail = [] ∨ tail = [Ofpact.clearActions]) →
        ofpacts_verify (l ++ tail) = none := by
  intro l
  induction l with
  | nil =>
    rintro _ tail (rfl | rfl) <;> rfl
  | cons a rest ih =>
    intro h tail htail
    unfold ofpacts_verify at ih ⊢
    rw [List.cons_append, ofpacts_verify_from]
    rw [if_neg (by simp)]
    rw [h a (List.mem_cons_self a rest)]
    exact ih (fun x hx => h x (List.mem_cons_of_mem a hx)) tail htail

/-- A list is its optional leading meter record plus the rest. -/
theorem stripMeter_recomb (A : List Ofpact) :
    meterPart (stripMeter A).1 ++ (stripMeter A).2 = A := by
  cases A with
  | nil => rfl
  | cons a rest => cases a <;> rfl

/-- The empty internal list encodes to no instructions. -/
theorem put_insts_nil :
    ofpacts_put_openflow11_instructions [] = some [] := by
  rw [ofpacts_put_openflow11_instructions]

/-- A leading meter record encodes to a meter instruction followed by the
encoding of the rest. -/
theorem put_insts_meter (m : Nat) (rest : List Ofpact) :
    ofpacts_put_openflow11_instructions (Ofpact.meter m :: rest)
      = (ofpacts_put_openflow11_instructions rest).map
          (fun tail => W11Instruction.meter m :: tail) := by
  rw [ofpacts_put_openflow11_instructions]
  cases ofpacts_put_openflow11_instructions rest <;> rfl

/-- A single clear_actions record encodes to a single clear-actions
instruction. -/
theorem put_insts_clear_nil :
    ofpacts_put_openflow11_instructions [Ofpact.clearActions]
      = some [W11Instruction.clearActions] := by
  rw [ofpacts_put_openflow11_instructions, put_insts_nil]
  rfl

/-- Unfolding of the encoder at a non-instruction head: the maximal run is
encoded as 1.1 actions and wrapped in one apply-actions instruction when
non-empty. -/
theorem put_insts_run (a : Ofpact) (rest : List Ofpact)
    (ha : ofpactIsInstruction a = false) :
    ofpacts_put_openflow11_instructions (a :: rest)
      = (do
          let inner ← ofpacts_put_openflow11_actions
            (a :: rest.takeWhile (fun x => !ofpactIsInstruction x))
          let tail ← ofpacts_put_openflow11_instructions
            (rest.dropWhile (fun x => !ofpactIsInstruction x))
          pure (if inner.isEmpty then tail
                else W11Instruction.applyActions inner :: tail)) := by
  cases a
  case clearActions => exact absurd ha (by simp [ofpactIsInstruction])
  case writeMetadata => exact absurd ha (by simp [ofpactIsInstruction])
  case gotoTable => exact absurd ha (by simp [ofpactIsInstruction])
  case meter => exact absurd ha (by simp [ofpactIsInstruction])
  all_goals (rw [ofpacts_put_openflow11_instructions] <;> simp)

/-- Materialisation step for a slot set with an apply-actions inner list and
no write-actions, write-metadata or goto-table slots. -/
theorem pullInstsAux_apply (mopt : Option Nat) (run : List Ofpact)
    (W : List W11Action) (clf : Bool)
    (hfold : ∀ buf, ofpacts_from_openflow ofpact_from_openflow11 W buf
      = (buf ++ run, none))
    (hver : ofpacts_verify ((meterPart mopt ++ run) ++
      (if clf then [Ofpact.clearActions] else [])) = none) :
    pullInstsAux ⟨mopt, some W, clf, none, none, none⟩
      = (none, (meterPart mopt ++ run) ++
          (if clf then [Ofpact.clearActions] else [])) := by
  cases clf
  · simp only [Bool.false_eq_true, if_false, List.append_nil] at hver ⊢
    unfold pullInstsAux pullInstsFinish
    dsimp only
    rw [hfold (meterPart mopt)]
    dsimp only
    simp only [Bool.false_eq_true, if_false]
    simp [hver]
  · simp only [if_true] at hver ⊢
    rw [List.append_assoc] at hver
    unfold pullInstsAux pullInstsFinish
    dsimp only
    rw [hfold (meterPart mopt)]
    dsimp only
    simp only [if_true]
    simp [hver]

/-- Materialisation step for a slot set with no apply-actions and no
write-actions, write-metadata or goto-table slots. -/
theorem pullInstsAux_noapply (mopt : Option Nat) (clf : Bool)
    (hver : ofpacts_verify (meterPart mopt ++
      (if clf then [Ofpact.clearActions] else [])) = none) :
    pullInstsAux ⟨mopt, none, clf, none, none, none⟩
      = (none, meterPart mopt ++
          (if clf then [Ofpact.clearActions] else [])) := by
  cases clf
  · simp only [Bool.false_eq_true, if_false, List.append_nil] at hver ⊢
    unfold pullInstsAux pullInstsFinish
    dsimp only
    simp only [Bool.false_eq_true, if_false]
    simp [hver]
  · simp only [if_true] at hver ⊢
    unfold pullInstsAux pullInstsFinish
    dsimp only
    simp only [if_true]
    simp [hver]

/-- Decoding the instruction shapes the encoder produces (optional meter,
optional apply-actions wrap of a run, optional clear-actions) recovers the
meter record, the run and the clear record in that order. -/
theorem pull_shape (mopt : Option Nat) (run : List Ofpact)
    (W : List W11Action) (cl : Bool)
    (hfold : ∀ buf, ofpacts_from_openflow ofpact_from_openflow11 W buf
      = (buf ++ run, none))
    (hrun0 : ∀ a ∈ run, instCategory a = 0) :
    ofpacts_pull_openflow11_instructions
      ((match mopt with
        | some m => [W11Instruction.meter m]
        | none => []) ++
       (if W.isEmpty then [] else [W11Instruction.applyActions W]) ++
       (if cl then [W11Instruction.clearActions] else []))
      = (none, meterPart mopt ++ run ++
          (if cl then [Ofpact.clearActions] else [])) := by
  have hm0 : ∀ a ∈ meterPart mopt ++ run, instCategory a = 0 := by
    intro a ha
    rcases List.mem_append.mp ha with ha | ha
    · rcases mopt with _ | m
      · simp [meterPart] at ha
      · simp [meterPart] at ha
        subst ha
        rfl
    · exact hrun0 a ha
  have hver : ofpacts_verify ((meterPart mopt ++ run) ++
      (if cl then [Ofpact.clearActions] else [])) = none := by
    apply verify_cat0_tail _ hm0
    cases cl
    · left; rfl
    · right; rfl
  have hWrun : W.isEmpty = true → run = [] := by
    intro hW
    have hf := hfold []
    rw [List.isEmpty_iff] at hW
    subst hW
    simp only [ofpacts_from_openflow, Prod.mk.injEq] at hf
    exact hf.1.symm
  rcases mopt with _ | m
  · cases hW : W.isEmpty
    · have hW2 : ¬W = [] := by
        intro hWnil
        rw [hWnil] at hW
        exact absurd hW (by simp)
      simp only [meterPart, hW, Bool.false_eq_true, if_false, List.nil_append]
      cases cl
      · simp only [Bool.false_eq_true, if_false, List.append_nil]
        unfold ofpacts_pull_openflow11_instructions
        rw [show decode_openflow11_instructions [W11Instruction.applyActions W]
            InstSet.empty = Except.ok ⟨none, some W, false, none, none, none⟩
          from rfl]
        have := pullInstsAux_apply none run W false hfold
          (by simpa [meterPart] using hver)
        simpa [meterPart] using this
      · simp only [if_true, List.singleton_append, List.cons_append,
          List.nil_append]
        unfold ofpacts_pull_openflow11_instructions
        rw [show decode_openflow11_instructions
            [W11Instruction.applyActions W, W11Instruction.clearActions]
            InstSet.empty = Except.ok ⟨none, some W, true, none, none, none⟩
          from rfl]
        have := pullInstsAux_apply none run W true hfold
          (by simpa [meterPart] using hver)
        simpa [meterPart] using this
    · have hrun := hWrun hW
      subst hrun
      simp only [meterPart, hW, if_true, List.nil_append, List.append_nil]
      cases cl
      · simp only [Bool.false_eq_true, if_false, List.append_nil]
        unfold ofpacts_pull_openflow11_instructions
        rw [show decode_openflow11_instructions ([] : List W11Instruction)
            InstSet.empty = Except.ok ⟨none, none, false, none, none, none⟩
          from rfl]
        have := pullInstsAux_noapply none false
          (by simpa [meterPart] using hver)
        simpa [meterPart] using this
      · simp only [if_true, List.singleton_append, List.cons_append,
          List.nil_append]
        unfold ofpacts_pull_openflow11_instructions
        rw [show decode_openflow11_instructions [W11Instruction.clearActions]
            InstSet.empty = Except.ok ⟨none, none, true, none, none, none⟩
          from rfl]
        have := pullInstsAux_noapply none true
          (by simpa [meterPart] using hver)
        simpa [meterPart] using this
  · cases hW : W.isEmpty
    · simp only [meterPart, hW, Bool.false_eq_true, if_false, List.cons_append,
        List.nil_append]
      cases cl
      · simp only [Bool.false_eq_true, if_false, List.append_nil]
        unfold ofpacts_pull_openflow11_instructions
        rw [show decode_openflow11_instructions
            [W11Instruction.meter m, W11Instruction.applyActions W]
            InstSet.empty = Except.ok ⟨some m, some W, false, none, none, none⟩
          from rfl]
        have := pullInstsAux_apply (some m) run W false hfold
          (by simpa [meterPart] using hver)
        simpa [meterPart, List.append_assoc] using this
      · simp only [if_true, List.singleton_append, List.cons_append,
          List.nil_append]
        unfold ofpacts_pull_openflow11_instructions
        rw [show decode_openflow11_instructions
            [W11Instruction.meter m, W11Instruction.applyActions W,
             W11Instruction.clearActions]
            InstSet.empty = Except.ok ⟨some m, some W, true, none, none, none⟩
          from rfl]
        have := pullInstsAux_apply (some m) run W true hfold
          (by simpa [meterPart] using hver)
        simpa [meterPart, List.append_assoc] using this
    · have hrun := hWrun hW
      subst hrun
      simp only [meterPart, hW, if_true, List.cons_append, List.nil_append,
        List.append_nil]
      cases cl
      · simp only [Bool.false_eq_true, if_false, List.append_nil]
        unfold ofpacts_pull_openflow11_instructions
        rw [show decode_openflow11_instructions [W11Instruction.meter m]
            InstSet.empty = Except.ok ⟨some m, none, false, none, none, none⟩
          from rfl]
        have := pullInstsAux_noapply (some m) false
          (by simpa [meterPart] using hver)
        simpa [meterPart] using this
      · simp only [if_true, List.singleton_append, List.cons_append,
          List.nil_append]
        unfold ofpacts_pull_openflow11_instructions
        rw [show decode_openflow11_instructions
            [W11Instruction.meter m, W11Instruction.clearActions]
            InstSet.empty = Except.ok ⟨some m, none, true, none, none, none⟩
          from rfl]
        have := pullInstsAux_noapply (some m) true
          (by simpa [meterPart] using hver)
        simpa [meterPart] using this

/-- takeWhile and dropWhile recover the two parts of a run of
non-instruction records followed by an optional clear_actions. -/
theorem run_take_drop (run drop : List Ofpact)
    (hrun : ∀ a ∈ run, ofpactIsInstruction a = false)
    (hdrop : drop = [] ∨ drop = [Ofpact.clearActions]) :
    (run ++ drop).takeWhile (fun x => !ofpactIsInstruction x) = run ∧
    (run ++ drop).dropWhile (fun x => !ofpactIsInstruction x) = drop := by
  induction run with
  | nil =>
    rcases hdrop with rfl | rfl
    · exact ⟨rfl, rfl⟩
    · exact ⟨rfl, rfl⟩
  | cons a rest ih =>
    have ha := hrun a (List.mem_cons_self a rest)
    obtain ⟨h1, h2⟩ := ih (fun x hx => hrun x (List.mem_cons_of_mem a hx))
    constructor
    · rw [List.cons_append, List.takeWhile_cons]
      simp [ha, h1]
    · rw [List.cons_append, List.dropWhile_cons]
      simp [ha, h2]

/-- Encoding a run of rt11-valid non-instruction records followed by an
optional clear_actions to the instruction dialect: the run becomes one
apply-actions wrap (omitted when it encodes to nothing) and the trailing
clear_actions becomes one clear-actions instruction. -/
theorem put_insts_tail (run drop : List Ofpact)
    (hrun : run.all rt11 = true)
    (hrunNI : ∀ a ∈ run, ofpactIsInstruction a = false)
    (hdrop : drop = [] ∨ drop = [Ofpact.clearActions]) :
    ∃ W : List W11Action,
      ofpacts_put_openflow11_actions run = some W ∧
      W.length = run.length ∧
      (∀ buf, ofpacts_from_openflow ofpact_from_openflow11 W buf
        = (buf ++ run, none)) ∧
      ofpacts_put_openflow11_instructions (run ++ drop)
        = some ((if W.isEmpty then [] else [W11Instruction.applyActions W]) ++
            (if decide (drop = [Ofpact.clearActions]) = true then
              [W11Instruction.clearActions] else [])) := by
  obtain ⟨W, hW, hlen, hfold⟩ := dec11_list run hrun
  refine ⟨W, hW, hlen, hfold, ?_⟩
  cases run with
  | nil =>
    have hWnil : W = [] := List.length_eq_zero.mp (by rw [hlen]; rfl)
    subst hWnil
    rcases hdrop with rfl | rfl
    · simp [put_insts_nil]
    · simp [put_insts_clear_nil]
  | cons a rest =>
    have ha := hrunNI a (List.mem_cons_self a rest)
    have hWnil : W ≠ [] := by
      intro hnil
      rw [hnil] at hlen
      simp at hlen
    have hWne : W.isEmpty = false := by
      cases hWe : W.isEmpty
      · rfl
      · rw [List.isEmpty_iff] at hWe
        exact absurd hWe hWnil
    obtain ⟨h1, h2⟩ := run_take_drop rest drop
      (fun x hx => hrunNI x (List.mem_cons_of_mem a hx)) hdrop
    rw [List.cons_append, put_insts_run a (rest ++ drop) ha, h1, h2]
    rcases hdrop with rfl | rfl
    · rw [hW, put_insts_nil]
      simp [hWne, hWnil]
    · rw [hW, put_insts_clear_nil]
      simp [hWne, hWnil]

/-- Instruction-dialect round trip over the decomposed list: optional meter
record, run, optional clear_actions. -/
theorem pull_insts_parts (mopt : Option Nat) (run drop : List Ofpact)
    (hrun : run.all rt11 = true)
    (hrunNI : ∀ a ∈ run, ofpactIsInstruction a = false)
    (hdrop : drop = [] ∨ drop = [Ofpact.clearActions]) :
    ∃ wi : List W11Instruction,
      ofpacts_put_openflow11_instructions (meterPart mopt ++ (run ++ drop))
        = some wi ∧
      ofpacts_pull_openflow11_instructions wi
        = (none, meterPart mopt ++ (run ++ drop)) := by
  obtain ⟨W, hW, hlen, hfold, hput⟩ := put_insts_tail run drop hrun hrunNI hdrop
  have hrun0 : ∀ a ∈ run, instCategory a = 0 :=
    fun a ha => instCategory_eq_zero a (hrunNI a ha)
  have hcl : (if decide (drop = [Ofpact.clearActions]) = true
      then [Ofpact.clearActions] else []) = drop := by
    rcases hdrop with rfl | rfl <;> simp
  refine ⟨(match mopt with
           | some m => [W11Instruction.meter m]
           | none => []) ++
          (if W.isEmpty then [] else [W11Instruction.applyActions W]) ++
          (if decide (drop = [Ofpact.clearActions]) = true then
            [W11Instruction.clearActions] else []), ?_, ?_⟩
  · rcases mopt with _ | m
    · simpa [meterPart] using hput
    · rw [show meterPart (some m) ++ (run ++ drop)
          = Ofpact.meter m :: (run ++ drop) from rfl]
      rw [put_insts_meter, hput]
      rfl
  · have hpull := pull_shape mopt run W
      (decide (drop = [Ofpact.clearActions])) hfold hrun0
    rw [hpull, hcl, List.append_assoc]

/-- Pull-level instruction-dialect round trip: an rtInstList-valid list
encodes to instructions that decode back to the same list. -/
theorem pull_insts_roundtrip (A : List Ofpact) (h : rtInstList A = true) :
    ∃ wi : List W11Instruction,
      ofpacts_put_openflow11_instructions A = some wi ∧
      ofpacts_pull_openflow11_instructions wi = (none, A) := by
  have hA := stripMeter_recomb A
  unfold rtInstList rtInstTail at h
  rw [Bool.and_eq_true, Bool.or_eq_true, decide_eq_true_eq,
    decide_eq_true_eq] at h
  obtain ⟨hrun, hdrop⟩ := h
  have hrunNI : ∀ a ∈ (stripMeter A).2.takeWhile
      (fun x => !ofpactIsInstruction x), ofpactIsInstruction a = false := by
    intro a haMem
    have hp := List.mem_takeWhile_imp haMem
    simpa using hp
  have hsplit : (stripMeter A).2.takeWhile (fun x => !ofpactIsInstruction x) ++
      (stripMeter A).2.dropWhile (fun x => !ofpactIsInstruction x)
      = (stripMeter A).2 := by
    rw [List.takeWhile_append_dropWhile]
  obtain ⟨wi, hput, hpull⟩ := pull_insts_parts (stripMeter A).1
    ((stripMeter A).2.takeWhile (fun x => !ofpactIsInstruction x))
    ((stripMeter A).2.dropWhile (fun x => !ofpactIsInstruction x))
    hrun hrunNI hdrop
  rw [hsplit, hA] at hput hpull
  exact ⟨wi, hput, hpull⟩

/-- Pull-level 1.0 round trip: translate stage plus order verification. -/
theorem pull10_roundtrip (A : List Ofpact) (h : A.all rt10 = true)
    (hver : ofpacts_verify A = none) :
    ofpacts_pull_openflow10 (ofpacts_put_openflow10 A) = (none, A) := by
  unfold ofpacts_pull_openflow10 ofpacts_pull_actions
  rw [dec10_list A h []]
  simp [hver]

/-- Pull-level 1.1 action-dialect round trip. -/
theorem pull11_roundtrip (A : List Ofpact) (h : A.all rt11 = true)
    (hver : ofpacts_verify A = none) :
    ∃ W : List W11Action, ofpacts_put_openflow11_actions A = some W ∧
      ofpacts_pull_openflow11_actions W = (none, A) := by
  obtain ⟨W, hW, hlen, hfold⟩ := dec11_list A h
  refine ⟨W, hW, ?_⟩
  unfold ofpacts_pull_openflow11_actions ofpacts_pull_actions
  rw [hfold []]
  simp [hver]

/-- C1 counterexample: the 1.0 encoder silently drops a clear_actions
record, so decoding its 1.0 encoding of [clear_actions] yields the empty
list, not the original list. -/
theorem c1_counterexample :
    ofpacts_pull_openflow10 (ofpacts_put_openflow10 [Ofpact.clearActions])
      = (none, ([] : List Ofpact)) ∧
    ([] : List Ofpact) ≠ [Ofpact.clearActions] := by
  exact ⟨rfl, by simp⟩

/-- C1 (amended): within each dialect, decoding the encoding is the
identity on lists whose records are field-valid with canonical compat,
survive that dialect's encoder and pass the order verifier: for 1.0 the
list contains none of the silently dropped kinds (push_vlan, clear_actions,
goto_table, meter, set_mpls_ttl, group); for 1.1 actions none of the
silently dropped enqueue and write_metadata nor the asserting instruction
kinds; for 1.1+ instructions the list is an optional leading meter, one run
of non-instruction records and an optional trailing clear_actions. -/
theorem c1_roundtrip (A : List Ofpact) :
    (A.all rt10 = true → ofpacts_verify A = none →
      ofpacts_pull_openflow10 (ofpacts_put_openflow10 A) = (none, A)) ∧
    (A.all rt11 = true → ofpacts_verify A = none →
      ∃ W : List W11Action, ofpacts_put_openflow11_actions A = some W ∧
        ofpacts_pull_openflow11_actions W = (none, A)) ∧
    (rtInstList A = true →
      ∃ wi : List W11Instruction,
        ofpacts_put_openflow11_instructions A = some wi ∧
        ofpacts_pull_openflow11_instructions wi = (none, A)) :=
  ⟨fun h hv => pull10_roundtrip A h hv,
   fun h hv => pull11_roundtrip A h hv,
   fun h => pull_insts_roundtrip A h⟩

/-- Witness for C1: a single output action round-trips in all three
dialects. -/
theorem c1_roundtrip_witness :
    [Ofpact.output 1 65535].all rt10 = true ∧
    [Ofpact.output 1 65535].all rt11 = true ∧
    ofpacts_verify [Ofpact.output 1 65535] = none ∧
    rtInstList [Ofpact.output 1 65535] = true ∧
    ofpacts_pull_openflow10 (ofpacts_put_openflow10 [Ofpact.output 1 65535])
      = (none, [Ofpact.output 1 65535]) ∧
    (∃ W : List W11Action,
      ofpacts_put_openflow11_actions [Ofpact.output 1 65535] = some W ∧
      ofpacts_pull_openflow11_actions W = (none, [Ofpact.output 1 65535])) ∧
    (∃ wi : List W11Instruction,
      ofpacts_put_openflow11_instructions [Ofpact.output 1 65535] = some wi ∧
      ofpacts_pull_openflow11_instructions wi
        = (none, [Ofpact.output 1 65535])) :=
  ⟨by decide, by decide, by decide, by decide,
   (c1_roundtrip [Ofpact.output 1 65535]).1 (by decide) (by decide),
   (c1_roundtrip [Ofpact.output 1 65535]).2.1 (by decide) (by decide),
   (c1_roundtrip [Ofpact.output 1 65535]).2.2 (by decide)⟩

end Lantern
